import Mathlib

/-!
Shallow embedding of the sale-transaction and stock-ledger core of the
yebomart-api repository (src/services/sale.service.ts, stock.service.ts,
shop.service.ts, prisma schema), together with theorems checking the
natural-language specification against it.

Conventions of the embedding:
* Postgres `DOUBLE PRECISION` money columns are modelled as rationals.
* `INTEGER` quantity columns are modelled as integers.
* Timestamps are modelled as integers counting minutes since the Unix
  epoch (UTC); the server's timezone enters as an explicit offset in
  minutes (local time = UTC instant + offset), mirroring how
  `new Date()`/`setHours` work on server wall-clock time while
  `toISOString` prints UTC fields.
* Each service method becomes a pure function threading the database
  state; a thrown JS `Error` becomes an `Except` error value, and the
  post-call database is returned alongside so that rollback behaviour is
  visible.
-/

namespace Yebomart

/-- Enum "PaymentMethod" of the prisma schema. -/
inductive PaymentMethod
  | CASH | MOMO | EMALI | CARD | MIXED | CREDIT
deriving DecidableEq

/-- Enum "SaleStatus" of the prisma schema. -/
inductive SaleStatus
  | PENDING | COMPLETED | VOIDED | REFUNDED
deriving DecidableEq

/-- Enum "StockLogType" of the prisma schema. -/
inductive StockLogType
  | SALE | RESTOCK | ADJUSTMENT | DAMAGED | EXPIRED | TRANSFER | RETURN | INITIAL
deriving DecidableEq

/-- Row of table "Product" (fields used by the core engines). -/
structure Product where
  id : String
  shopId : String
  name : String
  costPrice : ℚ
  sellPrice : ℚ
  quantity : ℤ
  trackStock : Bool
  isActive : Bool
deriving DecidableEq

/-- Row of table "SaleItem" (denormalized snapshot of the product at sale time). -/
structure SaleItem where
  productId : String
  productName : String
  quantity : ℤ
  unitPrice : ℚ
  costPrice : ℚ
  discount : ℚ
  totalPrice : ℚ
deriving DecidableEq

/-- Row of table "Sale", with its items included. -/
structure Sale where
  id : String
  shopId : String
  userId : Option String
  receiptNumber : String
  subtotal : ℚ
  discount : ℚ
  tax : ℚ
  totalAmount : ℚ
  paymentMethod : PaymentMethod
  amountPaid : ℚ
  change : ℚ
  status : SaleStatus
  voidReason : Option String
  createdAt : ℤ
  items : List SaleItem
deriving DecidableEq

/-- Row of table "StockLog" (the append-only stock ledger). -/
structure StockLog where
  shopId : String
  productId : String
  userId : Option String
  type : StockLogType
  quantity : ℤ
  previousQty : ℤ
  newQty : ℤ
  reference : Option String
  note : Option String
deriving DecidableEq

/-- Row of table "Shop" (fields used by the usage counters). -/
structure Shop where
  id : String
  monthlyTransactions : ℤ
  monthlyStockMoves : ℤ
deriving DecidableEq

/-- The relational state the core operates on. -/
structure DB where
  shops : List Shop
  products : List Product
  sales : List Sale
  ledger : List StockLog
deriving DecidableEq

/-! Calendar arithmetic. `daysFromCivil`/`civilFromDays` convert between a
Gregorian date and a day number relative to 1970-01-01, following the
standard civil-calendar algorithms used by JS `Date`. -/

/-- Day number of a Gregorian date (days since 1970-01-01). -/
def daysFromCivil (y m d : ℤ) : ℤ :=
  let y := if m ≤ 2 then y - 1 else y
  let era := Int.ediv y 400
  let yoe := y - era * 400
  let mp := if 2 < m then m - 3 else m + 9
  let doy := Int.ediv (153 * mp + 2) 5 + d - 1
  let doe := yoe * 365 + Int.ediv yoe 4 - Int.ediv yoe 100 + doy
  era * 146097 + doe - 719468

/-- Gregorian date (year, month, day) of a day number (days since 1970-01-01). -/
def civilFromDays (z : ℤ) : ℤ × ℤ × ℤ :=
  let z := z + 719468
  let era := Int.ediv z 146097
  let doe := z - era * 146097
  let yoe := Int.ediv (doe - Int.ediv doe 1460 + Int.ediv doe 36524 - Int.ediv doe 146096) 365
  let y := yoe + era * 400
  let doy := doe - (365 * yoe + Int.ediv yoe 4 - Int.ediv yoe 100)
  let mp := Int.ediv (5 * doy + 2) 153
  let d := doy - Int.ediv (153 * mp + 2) 5 + 1
  let m := if mp < 10 then mp + 3 else mp - 9
  (if m ≤ 2 then y + 1 else y, m, d)

/-- Left-pads a string with zeros to the given width, as JS padStart(w, "0"). -/
def padStart (width : Nat) (s : String) : String :=
  if s.length < width then String.mk (List.replicate (width - s.length) '0') ++ s else s

/-- The YYMMDD string of a (year, month, day) triple, as produced by
JS toISOString().slice(2, 10) with the dashes removed. -/
def yymmdd (ymd : ℤ × ℤ × ℤ) : String :=
  padStart 2 (toString (Int.emod ymd.1 100)) ++
  padStart 2 (toString ymd.2.1) ++
  padStart 2 (toString ymd.2.2)

/-- The YYMMDD string of a UTC instant, as the source's
today.toISOString().slice(2, 10) with dashes removed computes it
(toISOString prints the UTC calendar fields). -/
def dateStrOf (t : ℤ) : String :=
  yymmdd (civilFromDays (Int.ediv t 1440))

/-- The instant of the most recent server-local midnight, as
setHours(0, 0, 0, 0) computes it on the server's wall clock
(off = minutes a local clock is ahead of UTC). -/
def startOfLocalDay (t off : ℤ) : ℤ :=
  Int.ediv (t + off) 1440 * 1440 - off

/-- The count the source's tx.sale.count query returns: sales of the shop
with createdAt between the local startOfDay and endOfDay (inclusive;
the 23:59:59.999 end bound is the last minute of the local day at this
model's minute resolution). -/
def countTodaySales (db : DB) (shopId : String) (t off : ℤ) : Nat :=
  (db.sales.filter (fun s => s.shopId == shopId &&
    decide (startOfLocalDay t off ≤ s.createdAt) &&
    decide (s.createdAt ≤ startOfLocalDay t off + 1439))).length

/-! The sale engine (SaleService.create). -/

/-- One entry of CreateSaleInput.items. -/
structure SaleItemInput where
  productId : String
  quantity : ℤ
  discount : Option ℚ
deriving DecidableEq

/-- Interface CreateSaleInput of sale.service.ts. -/
structure CreateSaleInput where
  shopId : String
  userId : Option String
  items : List SaleItemInput
  paymentMethod : PaymentMethod
  amountPaid : ℚ
  discount : Option ℚ
deriving DecidableEq

/-- The Error values SaleService.create can throw, plus the failure of the
awaited usage-counter update after the committed transaction. -/
inductive SaleError
  | productNotFound
  | insufficientStock (productName : String) (available : ℤ)
  | insufficientPayment (required received : ℚ)
  | usageIncrementFailed
  | internalError
deriving DecidableEq

/-- Environment a single SaleService.create call runs in: the current
instant, the server timezone offset, the id the database generates for
the new Sale row, and whether the usage-counter update succeeds. -/
structure SaleEnv where
  now : ℤ
  tzOffset : ℤ
  saleId : String
  incrementOk : Bool
deriving DecidableEq

/-- The prisma.product.findMany of SaleService.create: products whose id is
among the requested ids, scoped to the shop, isActive = true. -/
def resolveProducts (db : DB) (input : CreateSaleInput) : List Product :=
  db.products.filter (fun p =>
    (input.items.map (fun i => i.productId)).contains p.id &&
    p.shopId == input.shopId && p.isActive)

/-- The validation-and-pricing loop of SaleService.create: per line, check
stock against the resolved snapshot, build the denormalized SaleItem and
accumulate the subtotal; the first failing line aborts the whole call. -/
def buildSaleItems (products : List Product) :
    List SaleItemInput → Except SaleError (List SaleItem × ℚ)
  | [] => .ok ([], 0)
  | item :: rest =>
    match products.find? (fun p => p.id == item.productId) with
    | none => .error .internalError
    | some product =>
      if product.trackStock && decide (product.quantity < item.quantity) then
        .error (.insufficientStock product.name product.quantity)
      else
        let itemDiscount := item.discount.getD 0
        let itemTotal := product.sellPrice * (item.quantity : ℚ) - itemDiscount
        match buildSaleItems products rest with
        | .error e => .error e
        | .ok (items, subtotal) =>
          .ok (⟨item.productId, product.name, item.quantity, product.sellPrice,
                product.costPrice, itemDiscount, itemTotal⟩ :: items,
               itemTotal + subtotal)

/-- Replaces the quantity of the product with the given id
(prisma product.update on the primary key). -/
def updateQty (products : List Product) (pid : String) (q : ℤ) : List Product :=
  products.map (fun p => if p.id == pid then { p with quantity := q } else p)

/-- ShopService.incrementUsage: bump one of the shop's monthly usage counters. -/
inductive UsageType
  | transaction | stockMove
deriving DecidableEq

/-- ShopService.incrementUsage as a state update (the successful case). -/
def incrementUsage (db : DB) (shopId : String) (t : UsageType) : DB :=
  { db with shops := db.shops.map (fun s =>
      if s.id == shopId then
        match t with
        | .transaction => { s with monthlyTransactions := s.monthlyTransactions + 1 }
        | .stockMove => { s with monthlyStockMoves := s.monthlyStockMoves + 1 }
      else s) }

/-- The stock-settlement loop inside the SaleService.create transaction:
for each line whose (snapshot) product tracks stock, write the decremented
quantity and append a SALE ledger entry, both computed from the stale
productMap snapshot taken before the transaction. -/
def applySaleStock (shopId : String) (userId : Option String) (saleId : String)
    (products : List Product) : List SaleItemInput → DB → DB
  | [], db => db
  | item :: rest, db =>
    let db' :=
      match products.find? (fun p => p.id == item.productId) with
      | none => db
      | some product =>
        if product.trackStock then
          let newQty := product.quantity - item.quantity
          let entry : StockLog :=
            { shopId := shopId, productId := item.productId,
              userId := userId, type := .SALE, quantity := -item.quantity,
              previousQty := product.quantity, newQty := newQty,
              reference := some saleId, note := none }
          { db with
            products := updateQty db.products item.productId newQty,
            ledger := db.ledger ++ [entry] }
        else db
    applySaleStock shopId userId saleId products rest db'

/-- SaleService.create. Returns the call's outcome together with the
database state after the call (errors thrown before the transaction leave
the state untouched; a failed usage increment leaves the committed
transaction in place). -/
def createSale (db : DB) (env : SaleEnv) (input : CreateSaleInput) :
    Except SaleError Sale × DB :=
  let products := resolveProducts db input
  if products.length ≠ input.items.length then
    (.error .productNotFound, db)
  else
    match buildSaleItems products input.items with
    | .error e => (.error e, db)
    | .ok (saleItems, subtotal) =>
      let discount := input.discount.getD 0
      let tax : ℚ := 0
      let totalAmount := subtotal - discount + tax
      let change := input.amountPaid - totalAmount
      if change < 0 then
        (.error (.insufficientPayment totalAmount input.amountPaid), db)
      else
        let receiptNumber := "RCP-" ++ dateStrOf env.now ++ "-" ++
          padStart 4 (toString (countTodaySales db input.shopId env.now env.tzOffset + 1))
        let sale : Sale :=
          { id := env.saleId, shopId := input.shopId,
            userId := input.userId, receiptNumber := receiptNumber,
            subtotal := subtotal, discount := discount, tax := tax,
            totalAmount := totalAmount, paymentMethod := input.paymentMethod,
            amountPaid := input.amountPaid, change := change, status := .COMPLETED,
            voidReason := none, createdAt := env.now, items := saleItems }
        let db1 : DB := { db with sales := db.sales ++ [sale] }
        let db2 := applySaleStock input.shopId input.userId env.saleId products input.items db1
        if env.incrementOk then
          (.ok sale, incrementUsage db2 input.shopId .transaction)
        else
          (.error .usageIncrementFailed, db2)

/-! The void/reversal engine (SaleService.voidSale). -/

/-- The Error SaleService.voidSale throws when the sale is missing,
belongs to another shop, or is not COMPLETED. -/
inductive VoidError
  | notFoundOrVoided
deriving DecidableEq

/-- The tx.sale.update of voidSale: set status VOIDED and the void reason
on the sale row with the given id. -/
def setVoided (sales : List Sale) (saleId reason : String) : List Sale :=
  sales.map (fun s =>
    if s.id == saleId then { s with status := .VOIDED, voidReason := some reason } else s)

/-- The stock-restoration loop inside the voidSale transaction: per item,
re-read the product (not shop-scoped) inside the transaction, and if it
still exists with trackStock, increment its quantity and append a RETURN
ledger entry noting the void reason. -/
def applyVoidStock (shopId : String) (userId : Option String) (saleId reason : String) :
    List SaleItem → DB → DB
  | [], db => db
  | item :: rest, db =>
    let db' :=
      match db.products.find? (fun p => p.id == item.productId) with
      | none => db
      | some product =>
        if product.trackStock then
          let newQty := product.quantity + item.quantity
          let entry : StockLog :=
            { shopId := shopId, productId := item.productId,
              userId := userId, type := .RETURN, quantity := item.quantity,
              previousQty := product.quantity, newQty := newQty,
              reference := some saleId, note := some ("Voided: " ++ reason) }
          { db with
            products := updateQty db.products item.productId newQty,
            ledger := db.ledger ++ [entry] }
        else db
    applyVoidStock shopId userId saleId reason rest db'

/-- SaleService.voidSale. The precondition lookup asks for a sale with the
given id, belonging to the shop, with status COMPLETED; on success the
status transition and stock restoration happen in one unit. -/
def voidSale (db : DB) (saleId shopId userId reason : String) :
    Except VoidError Sale × DB :=
  match db.sales.find? (fun s =>
      s.id == saleId && s.shopId == shopId && decide (s.status = SaleStatus.COMPLETED)) with
  | none => (.error .notFoundOrVoided, db)
  | some sale =>
    let db1 : DB := { db with sales := setVoided db.sales saleId reason }
    let db2 := applyVoidStock shopId (some userId) saleId reason sale.items db1
    (.ok { sale with status := .VOIDED, voidReason := some reason }, db2)

/-! The stock service (StockService.adjust and StockService.receive). -/

/-- The Error values the stock operations can throw, plus the failure of
the awaited usage-counter update. -/
inductive StockError
  | productNotFound
  | belowZero (current : ℤ)
  | nonPositiveReceiveQty
  | usageIncrementFailed
  | internalError
deriving DecidableEq

/-- Interface AdjustStockInput of stock.service.ts. -/
structure AdjustStockInput where
  shopId : String
  productId : String
  userId : Option String
  type : StockLogType
  quantity : ℤ
  note : Option String
  reference : Option String
deriving DecidableEq

/-- StockService.adjust: signed single-product adjustment, refused when the
resulting quantity would go below zero. -/
def adjustStock (db : DB) (input : AdjustStockInput) (incrementOk : Bool) :
    Except StockError (Product × StockLog) × DB :=
  match db.products.find? (fun p => p.id == input.productId && p.shopId == input.shopId) with
  | none => (.error .productNotFound, db)
  | some product =>
    let newQty := product.quantity + input.quantity
    if newQty < 0 then
      (.error (.belowZero product.quantity), db)
    else
      let entry : StockLog :=
        { shopId := input.shopId, productId := input.productId,
          userId := input.userId, type := input.type, quantity := input.quantity,
          previousQty := product.quantity, newQty := newQty,
          reference := input.reference, note := input.note }
      let db1 : DB :=
        { db with products := updateQty db.products input.productId newQty,
                  ledger := db.ledger ++ [entry] }
      if incrementOk then
        (.ok ({ product with quantity := newQty }, entry), incrementUsage db1 input.shopId .stockMove)
      else
        (.error .usageIncrementFailed, db1)

/-- One entry of ReceiveStockInput.items. -/
structure ReceiveItemInput where
  productId : String
  quantity : ℤ
  note : Option String
deriving DecidableEq

/-- Interface ReceiveStockInput of stock.service.ts. -/
structure ReceiveStockInput where
  shopId : String
  userId : Option String
  items : List ReceiveItemInput
  reference : Option String
deriving DecidableEq

/-- The per-item loop inside the StockService.receive transaction: reject
non-positive quantities (aborting the whole transaction), otherwise write
the incremented quantity and a RESTOCK entry, both computed from the
stale productMap snapshot taken before the transaction. -/
def applyReceiveStock (input : ReceiveStockInput) (products : List Product) :
    List ReceiveItemInput → DB → Except StockError DB
  | [], db => .ok db
  | item :: rest, db =>
    if item.quantity ≤ 0 then .error .nonPositiveReceiveQty
    else
      match products.find? (fun p => p.id == item.productId) with
      | none => .error .internalError
      | some product =>
        let newQty := product.quantity + item.quantity
        let entry : StockLog :=
          { shopId := input.shopId, productId := item.productId,
            userId := input.userId, type := .RESTOCK, quantity := item.quantity,
            previousQty := product.quantity, newQty := newQty,
            reference := input.reference, note := item.note }
        applyReceiveStock input products rest
          { db with products := updateQty db.products item.productId newQty,
                    ledger := db.ledger ++ [entry] }

/-- StockService.receive: bulk restock; resolution is shop-scoped (without
an isActive filter) and compares the found count against the line count;
an error inside the transaction rolls every line back. -/
def receiveStock (db : DB) (input : ReceiveStockInput) (incrementOk : Bool) :
    Except StockError DB × DB :=
  let products := db.products.filter (fun p =>
    (input.items.map (fun i => i.productId)).contains p.id && p.shopId == input.shopId)
  if products.length ≠ input.items.length then
    (.error .productNotFound, db)
  else
    match applyReceiveStock input products input.items db with
    | .error e => (.error e, db)
    | .ok db' =>
      if incrementOk then
        (.ok db', input.items.foldl (fun d _ => incrementUsage d input.shopId .stockMove) db')
      else
        (.error .usageIncrementFailed, db')

/-! Receipt lookup (SaleService.getByReceiptNumber). -/

/-- Error thrown by SaleService.getByReceiptNumber. -/
inductive LookupError
  | saleNotFound (receiptNumber : String)
deriving DecidableEq

/-- Uppercases every character of a string (JS toUpperCase on the ASCII
receipt alphabet). -/
def toUpper (s : String) : String := String.mk (s.data.map Char.toUpper)

/-- Whether the second list starts with the first list. -/
def charsStartWith : List Char → List Char → Bool
  | [], _ => true
  | _ :: _, [] => false
  | a :: as, b :: bs => a == b && charsStartWith as bs

/-- Whether the needle occurs as a contiguous run inside the haystack. -/
def charsContain (needle : List Char) : List Char → Bool
  | [] => needle.isEmpty
  | c :: t => charsStartWith needle (c :: t) || charsContain needle t

/-- The case-insensitive substring match prisma performs for
contains with insensitive mode: compare with both sides uppercased. -/
def matchesReceipt (receiptNumber query : String) : Bool :=
  charsContain (toUpper query).data (toUpper receiptNumber).data

/-- SaleService.getByReceiptNumber: first sale of the shop whose receipt
number contains the uppercased query, compared case-insensitively. -/
def getByReceiptNumber (db : DB) (receiptNumber shopId : String) :
    Except LookupError Sale :=
  match db.sales.find? (fun s =>
      s.shopId == shopId && matchesReceipt s.receiptNumber receiptNumber) with
  | some sale => .ok sale
  | none => .error (.saleNotFound receiptNumber)

/-! Sequences of core operations, for the whole-model ledger invariant. -/

/-- One call to a core stock-affecting operation. -/
inductive Op
  | sale (env : SaleEnv) (input : CreateSaleInput)
  | void (saleId shopId userId reason : String)
  | adjust (input : AdjustStockInput) (incrementOk : Bool)
  | receive (input : ReceiveStockInput) (incrementOk : Bool)

/-- The database state after one core operation (errors included: a failed
call leaves whatever state the source leaves). -/
def applyOp (db : DB) : Op → DB
  | .sale env input => (createSale db env input).2
  | .void saleId shopId userId reason => (voidSale db saleId shopId userId reason).2
  | .adjust input incrementOk => (adjustStock db input incrementOk).2
  | .receive input incrementOk => (receiveStock db input incrementOk).2

/-- The database state after a sequence of core operations. -/
def runOps (db : DB) (ops : List Op) : DB := ops.foldl applyOp db

/-- Current quantity of the product with the given id (0 when absent). -/
def qtyOf (db : DB) (pid : String) : ℤ :=
  match db.products.find? (fun p => p.id == pid) with
  | some p => p.quantity
  | none => 0

/-- Sum of the signed ledger deltas recorded for one product. -/
def ledgerSum (l : List StockLog) (pid : String) : ℤ :=
  ((l.filter (fun e => e.productId == pid)).map (fun e => e.quantity)).sum

/-! Basic lemmas about the product-list and ledger primitives. -/

theorem updateQty_map_id (ps : List Product) (pid : String) (q : ℤ) :
    (updateQty ps pid q).map (fun p => p.id) = ps.map (fun p => p.id) := by
  simp only [updateQty, List.map_map]
  apply List.map_congr_left
  intro p _
  by_cases h : p.id == pid <;> simp [Function.comp, h]

theorem find?_map_comm {α : Type} (f : α → α) (p : α → Bool) (l : List α)
    (hp : ∀ a, p (f a) = p a) :
    (l.map f).find? p = (l.find? p).map f := by
  induction l with
  | nil => rfl
  | cons a t ih =>
    rw [List.map_cons]
    cases hpa : p a with
    | true =>
      rw [List.find?_cons_of_pos (t.map f) (by rw [hp]; exact hpa),
        List.find?_cons_of_pos t hpa]
      rfl
    | false =>
      rw [List.find?_cons_of_neg (t.map f) (by rw [hp, hpa]; simp),
        List.find?_cons_of_neg t (by rw [hpa]; simp)]
      exact ih

theorem updateQty_pred_id (pid : String) (q : ℤ) (pid' : String) (a : Product) :
    ((if a.id == pid then { a with quantity := q } else a).id == pid') = (a.id == pid') := by
  by_cases h : (a.id == pid) = true <;> simp [h]

theorem find?_updateQty_self {ps : List Product} {pid : String} {p : Product} (q : ℤ)
    (h : ps.find? (fun x => x.id == pid) = some p) :
    (updateQty ps pid q).find? (fun x => x.id == pid) = some { p with quantity := q } := by
  unfold updateQty
  rw [find?_map_comm _ _ _ (updateQty_pred_id pid q pid), h]
  have hp : (p.id == pid) = true := @List.find?_some _ (fun x => x.id == pid) p ps h
  simp only [Option.map]
  rw [if_pos (by simpa using hp)]

theorem find?_updateQty_ne {ps : List Product} {pid pid' : String} (q : ℤ)
    (h : pid' ≠ pid) :
    (updateQty ps pid q).find? (fun x => x.id == pid') = ps.find? (fun x => x.id == pid') := by
  unfold updateQty
  rw [find?_map_comm _ _ _ (updateQty_pred_id pid q pid')]
  cases hfind : ps.find? (fun x => x.id == pid') with
  | none => rfl
  | some a =>
    have ha : a.id = pid' := by simpa using List.find?_some hfind
    have hne : (a.id == pid) = false := by
      simp [ha]
      exact fun hc => h hc
    simp only [Option.map]
    rw [if_neg (by simpa using hne)]

theorem find?_of_mem_nodup {ps : List Product} {p : Product}
    (hnd : (ps.map (fun x => x.id)).Nodup) (hmem : p ∈ ps) :
    ps.find? (fun x => x.id == p.id) = some p := by
  induction ps with
  | nil => simp at hmem
  | cons a t ih =>
    rw [List.map_cons, List.nodup_cons] at hnd
    rcases List.mem_cons.mp hmem with rfl | hmem
    · simp [List.find?_cons]
    · have hane : (a.id == p.id) = false := by
        simp only [beq_eq_false_iff_ne, ne_eq]
        intro hc
        exact hnd.1 (hc ▸ List.mem_map_of_mem (fun x => x.id) hmem)
      simp only [List.find?_cons, hane]
      exact ih hnd.2 hmem

theorem find?_id_of_find?_pred {ps : List Product} {φ : Product → Bool} {pid : String}
    {p : Product}
    (hnd : (ps.map (fun x => x.id)).Nodup)
    (h : ps.find? (fun x => x.id == pid && φ x) = some p) :
    ps.find? (fun x => x.id == pid) = some p := by
  have hmem := List.mem_of_find?_eq_some h
  have hp := List.find?_some h
  have hid : p.id = pid := by
    have := (Bool.and_eq_true _ _).mp hp
    simpa using this.1
  rw [← hid]
  exact find?_of_mem_nodup hnd hmem

theorem ledgerSum_append (l₁ l₂ : List StockLog) (pid : String) :
    ledgerSum (l₁ ++ l₂) pid = ledgerSum l₁ pid + ledgerSum l₂ pid := by
  simp [ledgerSum, List.filter_append]

theorem ledgerSum_nil (pid : String) : ledgerSum [] pid = 0 := rfl

theorem ledgerSum_single (e : StockLog) (pid : String) :
    ledgerSum [e] pid = if e.productId == pid then e.quantity else 0 := by
  by_cases h : e.productId == pid <;> simp [ledgerSum, List.filter, h]

/-! One core operation relates the pre- and post-state as follows: product
ids are untouched, the ledger only grows, every appended entry satisfies
the newQty bookkeeping identity, per product the quantity moves by exactly
the appended deltas, and the last appended entry per product records the
product's post-state quantity. All claims about ledger/quantity
consistency flow through this relation. -/
def StepOk (s s' : DB) : Prop :=
  s'.products.map (fun p => p.id) = s.products.map (fun p => p.id) ∧
  ∃ new, s'.ledger = s.ledger ++ new ∧
    (∀ e ∈ new, e.newQty = e.previousQty + e.quantity) ∧
    ∀ pid,
      qtyOf s' pid = qtyOf s pid + ledgerSum new pid ∧
      (∀ e, (new.filter (fun x => x.productId == pid)).getLast? = some e →
        e.newQty = qtyOf s' pid)

theorem StepOk.refl_of_eq {s s' : DB}
    (hp : s'.products = s.products) (hl : s'.ledger = s.ledger) : StepOk s s' := by
  refine ⟨by rw [hp], [], by simp [hl], by simp, fun pid => ⟨?_, by simp⟩⟩
  simp [qtyOf, hp, ledgerSum_nil]

theorem stepOk_refl (s : DB) : StepOk s s := StepOk.refl_of_eq rfl rfl

theorem StepOk.trans {s₁ s₂ s₃ : DB} (h₁ : StepOk s₁ s₂) (h₂ : StepOk s₂ s₃) :
    StepOk s₁ s₃ := by
  obtain ⟨hid₁, new₁, hl₁, hwf₁, hq₁⟩ := h₁
  obtain ⟨hid₂, new₂, hl₂, hwf₂, hq₂⟩ := h₂
  refine ⟨hid₂.trans hid₁, new₁ ++ new₂, by rw [hl₂, hl₁, List.append_assoc], ?_, ?_⟩
  · intro e he
    rcases List.mem_append.mp he with h | h
    · exact hwf₁ e h
    · exact hwf₂ e h
  · intro pid
    obtain ⟨hsum₁, hlast₁⟩ := hq₁ pid
    obtain ⟨hsum₂, hlast₂⟩ := hq₂ pid
    constructor
    · rw [hsum₂, hsum₁, ledgerSum_append]; ring
    · intro e he
      rw [List.filter_append] at he
      by_cases h2 : new₂.filter (fun x => x.productId == pid) = []
      · rw [h2, List.append_nil] at he
        have := hlast₁ e he
        rw [hsum₂, this]
        have : ledgerSum new₂ pid = 0 := by simp [ledgerSum, h2]
        rw [this, add_zero]
      · rw [List.getLast?_append_of_ne_nil _ h2] at he
        exact hlast₂ e he

theorem stepOk_shops_only {s : DB} (shops : List Shop) :
    StepOk s { s with shops := shops } := StepOk.refl_of_eq rfl rfl

theorem qtyOf_eq_of_find? {s : DB} {pid : String} {p : Product}
    (h : s.products.find? (fun x => x.id == pid) = some p) : qtyOf s pid = p.quantity := by
  simp [qtyOf, h]

/-- One update-plus-append settlement step, with the entry's previousQty
matching the product's current quantity, satisfies the step relation. -/
theorem stepOk_move {s : DB} {p : Product} {e : StockLog}
    (hfind : s.products.find? (fun x => x.id == e.productId) = some p)
    (hprev : e.previousQty = p.quantity)
    (hwf : e.newQty = e.previousQty + e.quantity) :
    StepOk s { s with products := updateQty s.products e.productId e.newQty,
                      ledger := s.ledger ++ [e] } := by
  refine ⟨updateQty_map_id _ _ _, [e], rfl, by simpa using hwf, ?_⟩
  intro pid
  constructor
  · by_cases hpid : pid = e.productId
    · subst hpid
      have h2 := @find?_updateQty_self s.products e.productId p e.newQty hfind
      simp only [qtyOf]
      simp only [h2, hfind]
      rw [ledgerSum_single, if_pos (by simp), hwf, hprev]
    · have h2 := @find?_updateQty_ne s.products e.productId pid e.newQty hpid
      simp only [qtyOf]
      rw [h2, ledgerSum_single, if_neg (by simpa using fun hc => hpid hc.symm), add_zero]
  · intro x hx
    by_cases hpid : pid = e.productId
    · subst hpid
      rw [List.filter_cons_of_pos (by simp)] at hx
      simp only [List.filter_nil, List.getLast?_singleton, Option.some.injEq] at hx
      subst hx
      have h2 := @find?_updateQty_self s.products e.productId p e.newQty hfind
      simp [qtyOf, h2]
    · rw [List.filter_cons_of_neg (by simpa using fun hc => hpid hc.symm)] at hx
      simp at hx

theorem stepOk_incrementUsage (db : DB) (shopId : String) (t : UsageType) :
    StepOk db (incrementUsage db shopId t) := StepOk.refl_of_eq rfl rfl

theorem stepOk_applyVoidStock (sh : String) (u : Option String) (sid r : String)
    (items : List SaleItem) (db : DB) :
    StepOk db (applyVoidStock sh u sid r items db) := by
  induction items generalizing db with
  | nil => exact stepOk_refl db
  | cons item rest ih =>
    cases hfind : db.products.find? (fun p => p.id == item.productId) with
    | none =>
      simp only [applyVoidStock, hfind]
      exact ih db
    | some product =>
      by_cases ht : product.trackStock = true
      · simp only [applyVoidStock, hfind, ht, if_true]
        refine StepOk.trans ?_ (ih _)
        exact @stepOk_move db product
          { shopId := sh, productId := item.productId, userId := u,
            type := .RETURN, quantity := item.quantity,
            previousQty := product.quantity, newQty := product.quantity + item.quantity,
            reference := some sid, note := some ("Voided: " ++ r) }
          hfind rfl rfl
      · rw [Bool.not_eq_true] at ht
        simp only [applyVoidStock, hfind, ht, Bool.false_eq_true, if_false]
        exact ih db

theorem stepOk_voidSale (db : DB) (saleId shopId userId reason : String) :
    StepOk db (voidSale db saleId shopId userId reason).2 := by
  unfold voidSale
  cases hfind : db.sales.find? (fun s =>
      s.id == saleId && s.shopId == shopId && decide (s.status = SaleStatus.COMPLETED)) with
  | none => exact stepOk_refl db
  | some sale =>
    simp only
    exact StepOk.trans (StepOk.refl_of_eq rfl rfl)
      (stepOk_applyVoidStock shopId (some userId) saleId reason sale.items _)

theorem stepOk_adjustStock (db : DB) (input : AdjustStockInput) (incrementOk : Bool)
    (hnd : (db.products.map (fun p => p.id)).Nodup) :
    StepOk db (adjustStock db input incrementOk).2 := by
  unfold adjustStock
  cases hfind : db.products.find? (fun p =>
      p.id == input.productId && p.shopId == input.shopId) with
  | none => exact stepOk_refl db
  | some product =>
    simp only
    by_cases hneg : product.quantity + input.quantity < 0
    · rw [if_pos hneg]
      exact stepOk_refl db
    · rw [if_neg hneg]
      have hfind2 : db.products.find? (fun p => p.id == input.productId) = some product :=
        find?_id_of_find?_pred hnd hfind
      cases incrementOk with
      | true =>
        refine StepOk.trans ?_ (stepOk_incrementUsage _ _ _)
        exact @stepOk_move db product
          { shopId := input.shopId, productId := input.productId, userId := input.userId,
            type := input.type, quantity := input.quantity,
            previousQty := product.quantity, newQty := product.quantity + input.quantity,
            reference := input.reference, note := input.note }
          hfind2 rfl rfl
      | false =>
        exact @stepOk_move db product
          { shopId := input.shopId, productId := input.productId, userId := input.userId,
            type := input.type, quantity := input.quantity,
            previousQty := product.quantity, newQty := product.quantity + input.quantity,
            reference := input.reference, note := input.note }
          hfind2 rfl rfl

theorem nodup_of_toFinset_card {α : Type} [DecidableEq α] {l : List α}
    (h : l.toFinset.card = l.length) : l.Nodup := by
  have h2 := (Multiset.toFinset_card_eq_card_iff_nodup (m := (l : Multiset α))).mp
  simpa using h2 (by simpa using h)

/-- A findMany resolution that returns as many rows as there are requested
ids forces the requested ids to be duplicate-free, and finds, for every
requested id, one product that is both the first match in the filtered
snapshot and the first match in the full table. -/
theorem resolve_success {ps : List Product} {ids : List String} {φ : Product → Bool}
    (hφ : ∀ p, φ p = true → ids.contains p.id = true)
    (hnd : (ps.map (fun p => p.id)).Nodup)
    (hlen : (ps.filter φ).length = ids.length) :
    ids.Nodup ∧ ∀ i ∈ ids, ∃ p,
      (ps.filter φ).find? (fun x => x.id == i) = some p ∧
      ps.find? (fun x => x.id == i) = some p ∧ φ p = true := by
  classical
  have hsub : List.Sublist (ps.filter φ) ps := List.filter_sublist ps
  have hndF : ((ps.filter φ).map (fun p => p.id)).Nodup :=
    List.Nodup.sublist (hsub.map (fun p => p.id)) hnd
  have hsubset : ∀ x ∈ (ps.filter φ).map (fun p => p.id), x ∈ ids := by
    intro x hx
    rcases List.mem_map.mp hx with ⟨p, hpF, rfl⟩
    exact List.elem_iff.mp (hφ p (List.mem_filter.mp hpF).2)
  have hcard1 : ((ps.filter φ).map (fun p => p.id)).toFinset.card = ids.length := by
    rw [List.toFinset_card_of_nodup hndF, List.length_map, hlen]
  have hsubF : ((ps.filter φ).map (fun p => p.id)).toFinset ⊆ ids.toFinset := by
    intro x hx
    rw [List.mem_toFinset] at hx ⊢
    exact hsubset x hx
  have heq : ((ps.filter φ).map (fun p => p.id)).toFinset = ids.toFinset :=
    Finset.eq_of_subset_of_card_le hsubF (by rw [hcard1]; exact List.toFinset_card_le (l := ids))
  have hidsnd : ids.Nodup := nodup_of_toFinset_card (by rw [← heq, hcard1])
  refine ⟨hidsnd, ?_⟩
  intro i hi
  have hmemF : i ∈ ((ps.filter φ).map (fun p => p.id)) := by
    have : i ∈ ((ps.filter φ).map (fun p => p.id)).toFinset := by
      rw [heq, List.mem_toFinset]
      exact hi
    rwa [List.mem_toFinset] at this
  rcases List.mem_map.mp hmemF with ⟨p, hpF, rfl⟩
  exact ⟨p, find?_of_mem_nodup hndF hpF,
    find?_of_mem_nodup hnd (List.mem_filter.mp hpF).1, (List.mem_filter.mp hpF).2⟩

/-- Whether the snapshot list and the live product table agree (via
first-match lookup) on every id in the given list. -/
def agreeOn (snapshot : List Product) (db : DB) (pids : List String) : Prop :=
  ∀ pid ∈ pids, ∃ p, snapshot.find? (fun x => x.id == pid) = some p ∧
    db.products.find? (fun x => x.id == pid) = some p

theorem stepOk_applySaleStock (sh : String) (u : Option String) (sid : String)
    (snapshot : List Product) (items : List SaleItemInput) (db : DB)
    (hdist : (items.map (fun i => i.productId)).Nodup)
    (hagree : agreeOn snapshot db (items.map (fun i => i.productId))) :
    StepOk db (applySaleStock sh u sid snapshot items db) := by
  induction items generalizing db with
  | nil => exact stepOk_refl db
  | cons item rest ih =>
    rw [List.map_cons, List.nodup_cons] at hdist
    obtain ⟨p, hsnap, hdb⟩ := hagree item.productId (by simp)
    by_cases ht : p.trackStock = true
    · simp only [applySaleStock, hsnap, ht, if_true]
      refine StepOk.trans ?_ (ih _ hdist.2 ?_)
      · exact @stepOk_move db p
          { shopId := sh, productId := item.productId, userId := u,
            type := .SALE, quantity := -item.quantity,
            previousQty := p.quantity, newQty := p.quantity - item.quantity,
            reference := some sid, note := none }
          hdb rfl (by ring)
      · intro pid hpid
        obtain ⟨q, hq1, hq2⟩ := hagree pid (by simp [hpid])
        refine ⟨q, hq1, ?_⟩
        have hne : pid ≠ item.productId := by
          intro hc
          exact hdist.1 (hc ▸ hpid)
        show (updateQty db.products item.productId
          (p.quantity - item.quantity)).find? (fun x => x.id == pid) = some q
        rw [@find?_updateQty_ne db.products item.productId pid _ hne]
        exact hq2
    · rw [Bool.not_eq_true] at ht
      simp only [applySaleStock, hsnap, ht, Bool.false_eq_true, if_false]
      refine ih _ hdist.2 ?_
      intro pid hpid
      exact hagree pid (by simp [hpid])

theorem agreeOn_of_resolve {db : DB} {input : CreateSaleInput}
    (hnd : (db.products.map (fun p => p.id)).Nodup)
    (hres : (resolveProducts db input).length = input.items.length) :
    (input.items.map (fun i => i.productId)).Nodup ∧
      agreeOn (resolveProducts db input) db (input.items.map (fun i => i.productId)) := by
  have hlen : (db.products.filter (fun p =>
      (input.items.map (fun i => i.productId)).contains p.id &&
      p.shopId == input.shopId && p.isActive)).length =
      (input.items.map (fun i => i.productId)).length := by
    rw [List.length_map]
    exact hres
  have h := resolve_success (fun p hp => by
      have := (Bool.and_eq_true _ _).mp ((Bool.and_eq_true _ _).mp hp).1
      exact this.1) hnd hlen
  exact ⟨h.1, fun pid hpid => by
    obtain ⟨p, h1, h2, _⟩ := h.2 pid hpid
    exact ⟨p, h1, h2⟩⟩

theorem stepOk_createSale (db : DB) (env : SaleEnv) (input : CreateSaleInput)
    (hnd : (db.products.map (fun p => p.id)).Nodup) :
    StepOk db (createSale db env input).2 := by
  unfold createSale
  by_cases hres : (resolveProducts db input).length ≠ input.items.length
  · rw [if_pos hres]
    exact stepOk_refl db
  · rw [if_neg hres]
    rw [not_not] at hres
    obtain ⟨hdist, hagree⟩ := agreeOn_of_resolve hnd hres
    cases hbuild : buildSaleItems (resolveProducts db input) input.items with
    | error e => exact stepOk_refl db
    | ok pr =>
      obtain ⟨saleItems, subtotal⟩ := pr
      simp only
      by_cases hpay : input.amountPaid - (subtotal - input.discount.getD 0 + 0) < 0
      · rw [if_pos hpay]
        exact stepOk_refl db
      · rw [if_neg hpay]
        by_cases hinc : env.incrementOk = true
        · rw [if_pos hinc]
          refine StepOk.trans ?_ (stepOk_incrementUsage _ _ _)
          refine StepOk.trans ?_ (stepOk_applySaleStock input.shopId input.userId env.saleId
            (resolveProducts db input) input.items _ hdist ?_)
          · exact StepOk.refl_of_eq rfl rfl
          · exact hagree
        · rw [Bool.not_eq_true] at hinc
          rw [hinc]
          simp only [Bool.false_eq_true, if_false]
          refine StepOk.trans ?_ (stepOk_applySaleStock input.shopId input.userId env.saleId
            (resolveProducts db input) input.items _ hdist ?_)
          · exact StepOk.refl_of_eq rfl rfl
          · exact hagree

theorem stepOk_applyReceiveStock {input : ReceiveStockInput} {snapshot : List Product}
    {items : List ReceiveItemInput} {db db2 : DB}
    (hdist : (items.map (fun i => i.productId)).Nodup)
    (hagree : agreeOn snapshot db (items.map (fun i => i.productId)))
    (h : applyReceiveStock input snapshot items db = .ok db2) :
    StepOk db db2 := by
  induction items generalizing db with
  | nil =>
    simp only [applyReceiveStock] at h
    cases h
    exact stepOk_refl _
  | cons item rest ih =>
    rw [List.map_cons, List.nodup_cons] at hdist
    obtain ⟨p, hsnap, hdb⟩ := hagree item.productId (by simp)
    simp only [applyReceiveStock] at h
    by_cases hq : item.quantity ≤ 0
    · rw [if_pos hq] at h
      cases h
    · rw [if_neg hq] at h
      rw [hsnap] at h
      refine StepOk.trans ?_ (ih hdist.2 ?_ h)
      · exact @stepOk_move db p
          { shopId := input.shopId, productId := item.productId, userId := input.userId,
            type := .RESTOCK, quantity := item.quantity,
            previousQty := p.quantity, newQty := p.quantity + item.quantity,
            reference := input.reference, note := item.note }
          hdb rfl rfl
      · intro pid hpid
        obtain ⟨q, hq1, hq2⟩ := hagree pid (by simp [hpid])
        refine ⟨q, hq1, ?_⟩
        have hne : pid ≠ item.productId := fun hc => hdist.1 (hc ▸ hpid)
        show (updateQty db.products item.productId
          (p.quantity + item.quantity)).find? (fun x => x.id == pid) = some q
        rw [@find?_updateQty_ne db.products item.productId pid _ hne]
        exact hq2

theorem stepOk_foldl_increment (sh : String) (t : UsageType) {α : Type}
    (l : List α) (db : DB) :
    StepOk db (l.foldl (fun d _ => incrementUsage d sh t) db) := by
  induction l generalizing db with
  | nil => exact stepOk_refl db
  | cons a rest ih =>
    exact StepOk.trans (stepOk_incrementUsage db sh t) (ih _)

theorem stepOk_receiveStock (db : DB) (input : ReceiveStockInput) (incrementOk : Bool)
    (hnd : (db.products.map (fun p => p.id)).Nodup) :
    StepOk db (receiveStock db input incrementOk).2 := by
  unfold receiveStock
  by_cases hres : (db.products.filter (fun p =>
      (input.items.map (fun i => i.productId)).contains p.id &&
      p.shopId == input.shopId)).length ≠ input.items.length
  · rw [if_pos hres]
    exact stepOk_refl db
  · rw [if_neg hres]
    rw [not_not] at hres
    have hlen : (db.products.filter (fun p =>
        (input.items.map (fun i => i.productId)).contains p.id &&
        p.shopId == input.shopId)).length =
        (input.items.map (fun i => i.productId)).length := by
      rw [List.length_map]
      exact hres
    have hr := resolve_success (fun p hp => ((Bool.and_eq_true _ _).mp hp).1) hnd hlen
    have hagree : agreeOn (db.products.filter (fun p =>
        (input.items.map (fun i => i.productId)).contains p.id &&
        p.shopId == input.shopId)) db (input.items.map (fun i => i.productId)) := by
      intro pid hpid
      obtain ⟨p, h1, h2, _⟩ := hr.2 pid hpid
      exact ⟨p, h1, h2⟩
    cases happ : applyReceiveStock input (db.products.filter (fun p =>
        (input.items.map (fun i => i.productId)).contains p.id &&
        p.shopId == input.shopId)) input.items db with
    | error e =>
      simp only [happ]
      exact stepOk_refl db
    | ok db2 =>
      simp only [happ]
      have hstep := stepOk_applyReceiveStock hr.1 hagree happ
      cases incrementOk with
      | true => exact StepOk.trans hstep (stepOk_foldl_increment _ _ _ _)
      | false => exact hstep

theorem stepOk_applyOp (db : DB) (op : Op)
    (hnd : (db.products.map (fun p => p.id)).Nodup) :
    StepOk db (applyOp db op) := by
  cases op with
  | sale env input => exact stepOk_createSale db env input hnd
  | void saleId shopId userId reason => exact stepOk_voidSale db saleId shopId userId reason
  | adjust input incrementOk => exact stepOk_adjustStock db input incrementOk hnd
  | receive input incrementOk => exact stepOk_receiveStock db input incrementOk hnd

theorem stepOk_runOps (s0 : DB) (ops : List Op)
    (hnd : (s0.products.map (fun p => p.id)).Nodup) :
    StepOk s0 (runOps s0 ops) := by
  induction ops generalizing s0 with
  | nil => exact stepOk_refl s0
  | cons op rest ih =>
    have h1 := stepOk_applyOp s0 op hnd
    have hnd2 : ((applyOp s0 op).products.map (fun p => p.id)).Nodup := by
      rw [h1.1]
      exact hnd
    exact StepOk.trans h1 (ih _ hnd2)

/-! Concrete sample data used by witnesses and counterexamples: one shop,
one tracked product with quantity 10 and sellPrice 12, the server clock at
2026-02-12 23:00 UTC with a UTC+2 wall clock. -/

/-- Sample product P1 of the specification scenarios. -/
def sampleProduct : Product :=
  { id := "P1", shopId := "S1", name := "Widget", costPrice := 8, sellPrice := 12,
    quantity := 10, trackStock := true, isActive := true }

/-- Sample untracked product. -/
def sampleService : Product :=
  { id := "P2", shopId := "S1", name := "Delivery", costPrice := 0, sellPrice := 5,
    quantity := 0, trackStock := false, isActive := true }

/-- Sample database: one shop, products P1 and P2, no sales, empty ledger. -/
def sampleDB : DB :=
  { shops := [{ id := "S1", monthlyTransactions := 0, monthlyStockMoves := 0 }],
    products := [sampleProduct, sampleService], sales := [], ledger := [] }

/-- Sample call environment: 2026-02-12 23:00 UTC on a server whose wall
clock runs at UTC+2, generated sale id "SALE1", usage update succeeding. -/
def sampleEnv : SaleEnv :=
  { now := daysFromCivil 2026 2 12 * 1440 + 23 * 60, tzOffset := 120,
    saleId := "SALE1", incrementOk := true }

/-- Sample cart: three units of P1 paid with 40 in cash. -/
def sampleInput : CreateSaleInput :=
  { shopId := "S1", userId := some "U1",
    items := [{ productId := "P1", quantity := 3, discount := none }],
    paymentMethod := .CASH, amountPaid := 40, discount := none }

/-- C1 claim: every ledger entry written by the core operations satisfies
newQty = previousQty + quantity, the last entry per product records the
product quantity as of its write, and for tracked products the current
quantity is the initial quantity plus the sum of all ledger deltas. -/
theorem ledger_conservation (s0 : DB) (ops : List Op)
    (hnd : (s0.products.map (fun p => p.id)).Nodup)
    (hinit : s0.ledger = []) :
    (∀ e ∈ (runOps s0 ops).ledger, e.newQty = e.previousQty + e.quantity) ∧
    (∀ pid e,
      ((runOps s0 ops).ledger.filter (fun x => x.productId == pid)).getLast? = some e →
      e.newQty = qtyOf (runOps s0 ops) pid) ∧
    (∀ p ∈ (runOps s0 ops).products, p.trackStock = true →
      ∃ p0 ∈ s0.products, p0.id = p.id ∧
        p.quantity = p0.quantity + ledgerSum (runOps s0 ops).ledger p.id) := by
  obtain ⟨hid, new, hl, hwf, hq⟩ := stepOk_runOps s0 ops hnd
  rw [hinit, List.nil_append] at hl
  refine ⟨?_, ?_, ?_⟩
  · intro e he
    rw [hl] at he
    exact hwf e he
  · intro pid e he
    rw [hl] at he
    exact (hq pid).2 e he
  · intro p hp htrack
    have hndf : ((runOps s0 ops).products.map (fun x => x.id)).Nodup := by
      rw [hid]
      exact hnd
    have hqty : qtyOf (runOps s0 ops) p.id = p.quantity :=
      qtyOf_eq_of_find? (find?_of_mem_nodup hndf hp)
    have hidmem : p.id ∈ s0.products.map (fun x => x.id) := by
      rw [← hid]
      exact List.mem_map_of_mem _ hp
    rcases List.mem_map.mp hidmem with ⟨p0, hp0, hpid⟩
    refine ⟨p0, hp0, hpid, ?_⟩
    have hq0 : qtyOf s0 p.id = p0.quantity := by
      rw [← hpid]
      exact qtyOf_eq_of_find? (find?_of_mem_nodup hnd hp0)
    have hsum := (hq p.id).1
    rw [hqty, hq0] at hsum
    rw [hl]
    exact hsum

/-- Sample restock input: five more units of P1 against a purchase order. -/
def sampleReceiveInput : ReceiveStockInput :=
  { shopId := "S1", userId := some "U1",
    items := [{ productId := "P1", quantity := 5, note := none }],
    reference := some "PO-7" }

/-- Sample adjustment input: write off two damaged units of P1. -/
def sampleAdjustInput : AdjustStockInput :=
  { shopId := "S1", productId := "P1", userId := some "U1",
    type := .DAMAGED, quantity := -2, note := some "broken", reference := none }

/-- Sample operation sequence: sell three P1, void that sale, receive five
more P1, then adjust two P1 away as damaged. -/
def sampleOps : List Op :=
  [.sale sampleEnv sampleInput,
   .void "SALE1" "S1" "U2" "customer changed mind",
   .receive sampleReceiveInput true,
   .adjust sampleAdjustInput true]

theorem ledger_conservation_witness :
    (∀ e ∈ (runOps sampleDB sampleOps).ledger, e.newQty = e.previousQty + e.quantity) ∧
    (∀ pid e,
      ((runOps sampleDB sampleOps).ledger.filter (fun x => x.productId == pid)).getLast? = some e →
      e.newQty = qtyOf (runOps sampleDB sampleOps) pid) ∧
    (∀ p ∈ (runOps sampleDB sampleOps).products, p.trackStock = true →
      ∃ p0 ∈ sampleDB.products, p0.id = p.id ∧
        p.quantity = p0.quantity + ledgerSum (runOps sampleDB sampleOps).ledger p.id) :=
  ledger_conservation sampleDB sampleOps (by decide) rfl

/-- Decidable equality for call outcomes, so concrete runs can be checked
by evaluation. -/
instance {ε α : Type} [DecidableEq ε] [DecidableEq α] : DecidableEq (Except ε α) := fun a b =>
  match a, b with
  | .error x, .error y =>
    match decEq x y with
    | .isTrue h => .isTrue (h ▸ rfl)
    | .isFalse h => .isFalse fun hc => h (Except.error.inj hc)
  | .ok x, .ok y =>
    match decEq x y with
    | .isTrue h => .isTrue (h ▸ rfl)
    | .isFalse h => .isFalse fun hc => h (Except.ok.inj hc)
  | .error _, .ok _ => .isFalse fun hc => Except.noConfusion hc
  | .ok _, .error _ => .isFalse fun hc => Except.noConfusion hc

theorem buildSaleItems_insufficientStock {products : List Product}
    {items : List SaleItemInput} {n : String} {a : ℤ}
    (h : buildSaleItems products items = .error (.insufficientStock n a)) :
    ∃ p ∈ products, p.name = n ∧ p.quantity = a ∧ p.trackStock = true := by
  induction items with
  | nil => simp [buildSaleItems] at h
  | cons item rest ih =>
    rw [buildSaleItems] at h
    cases hfind : products.find? (fun x => x.id == item.productId) with
    | none =>
      simp only [hfind] at h
      exact absurd h (by simp)
    | some p =>
      simp only [hfind] at h
      by_cases hc : (p.trackStock && decide (p.quantity < item.quantity)) = true
      · rw [if_pos hc] at h
        simp only [Except.error.injEq, SaleError.insufficientStock.injEq] at h
        exact ⟨p, List.mem_of_find?_eq_some hfind, h.1, h.2,
          ((Bool.and_eq_true _ _).mp hc).1⟩
      · rw [if_neg hc] at h
        cases hrec : buildSaleItems products rest with
        | error e2 =>
          simp only [hrec, Except.error.injEq] at h
          rw [h] at hrec
          exact ih hrec
        | ok pr =>
          obtain ⟨items2, sub2⟩ := pr
          simp only [hrec] at h
          exact absurd h (by simp)

/-- C4 claim: ProductNotFound, InsufficientStock and InsufficientPayment
are pre-commit failures with zero side effects, and InsufficientStock
reports the available quantity of a product of the shop. -/
theorem create_failure_no_side_effects (db : DB) (env : SaleEnv) (input : CreateSaleInput) :
    (∀ e, (createSale db env input).1 = Except.error e →
      e ≠ SaleError.usageIncrementFailed → (createSale db env input).2 = db) ∧
    (∀ n a, (createSale db env input).1 = Except.error (.insufficientStock n a) →
      ∃ p ∈ db.products, p.shopId = input.shopId ∧ p.isActive = true ∧
        p.name = n ∧ p.quantity = a ∧ p.trackStock = true) := by
  constructor
  · intro e he hkind
    unfold createSale at he ⊢
    by_cases hres : (resolveProducts db input).length ≠ input.items.length
    · rw [if_pos hres]
    · rw [if_neg hres] at he ⊢
      cases hbuild : buildSaleItems (resolveProducts db input) input.items with
      | error e2 => rfl
      | ok pr =>
        obtain ⟨saleItems, subtotal⟩ := pr
        rw [hbuild] at he
        simp only at he ⊢
        by_cases hpay : input.amountPaid - (subtotal - input.discount.getD 0 + 0) < 0
        · rw [if_pos hpay]
        · rw [if_neg hpay] at he
          by_cases hinc : env.incrementOk = true
          · rw [if_pos hinc] at he
            simp at he
          · rw [Bool.not_eq_true] at hinc
            rw [hinc] at he
            simp only [Bool.false_eq_true, if_false] at he
            simp only [Except.error.injEq] at he
            exact absurd he.symm hkind
  · intro n a he
    unfold createSale at he
    by_cases hres : (resolveProducts db input).length ≠ input.items.length
    · rw [if_pos hres] at he
      simp at he
    · rw [if_neg hres] at he
      cases hbuild : buildSaleItems (resolveProducts db input) input.items with
      | error e2 =>
        rw [hbuild] at he
        simp only [Except.error.injEq] at he
        rw [he] at hbuild
        obtain ⟨p, hpmem, hname, hqty, htrack⟩ := buildSaleItems_insufficientStock hbuild
        have hf := List.mem_filter.mp hpmem
        have hφ := (Bool.and_eq_true _ _).mp hf.2
        exact ⟨p, hf.1, by simpa using ((Bool.and_eq_true _ _).mp hφ.1).2,
          by simpa using hφ.2, hname, hqty, htrack⟩
      | ok pr =>
        obtain ⟨saleItems, subtotal⟩ := pr
        rw [hbuild] at he
        simp only at he
        by_cases hpay : input.amountPaid - (subtotal - input.discount.getD 0 + 0) < 0
        · rw [if_pos hpay] at he
          simp at he
        · rw [if_neg hpay] at he
          by_cases hinc : env.incrementOk = true
          · rw [if_pos hinc] at he
            simp at he
          · rw [Bool.not_eq_true] at hinc
            rw [hinc] at he
            simp at he

/-- Sample cart asking for one unit more than the available stock. -/
def sampleInputEleven : CreateSaleInput :=
  { shopId := "S1", userId := some "U1",
    items := [{ productId := "P1", quantity := 11, discount := none }],
    paymentMethod := .CASH, amountPaid := 200, discount := none }

theorem create_failure_no_side_effects_witness :
    (createSale sampleDB sampleEnv sampleInputEleven).1 =
      Except.error (.insufficientStock "Widget" 10) ∧
    (createSale sampleDB sampleEnv sampleInputEleven).2 = sampleDB ∧
    (∃ p ∈ sampleDB.products, p.shopId = sampleInputEleven.shopId ∧ p.isActive = true ∧
      p.name = "Widget" ∧ p.quantity = 10 ∧ p.trackStock = true) :=
  ⟨by decide,
   (create_failure_no_side_effects sampleDB sampleEnv sampleInputEleven).1
     (SaleError.insufficientStock "Widget" 10) (by decide) (by decide),
   (create_failure_no_side_effects sampleDB sampleEnv sampleInputEleven).2
     "Widget" 10 (by decide)⟩

/-- Inversion of a successful SaleService.create call: resolution matched,
validation and payment checks passed, the returned sale is exactly the row
inserted by the transaction, and the final state is the committed
transaction plus the usage increment. -/
theorem createSale_ok_inv {db db2 : DB} {env : SaleEnv} {input : CreateSaleInput} {sale : Sale}
    (h : createSale db env input = (.ok sale, db2)) :
    (resolveProducts db input).length = input.items.length ∧
    env.incrementOk = true ∧
    ∃ saleItems subtotal,
      buildSaleItems (resolveProducts db input) input.items = .ok (saleItems, subtotal) ∧
      ¬(input.amountPaid - (subtotal - input.discount.getD 0 + 0) < 0) ∧
      sale =
        { id := env.saleId, shopId := input.shopId, userId := input.userId,
          receiptNumber := "RCP-" ++ dateStrOf env.now ++ "-" ++
            padStart 4 (toString (countTodaySales db input.shopId env.now env.tzOffset + 1)),
          subtotal := subtotal, discount := input.discount.getD 0, tax := 0,
          totalAmount := subtotal - input.discount.getD 0 + 0,
          paymentMethod := input.paymentMethod, amountPaid := input.amountPaid,
          change := input.amountPaid - (subtotal - input.discount.getD 0 + 0),
          status := .COMPLETED, voidReason := none, createdAt := env.now, items := saleItems } ∧
      db2 = incrementUsage (applySaleStock input.shopId input.userId env.saleId
        (resolveProducts db input) input.items
        { db with sales := db.sales ++ [sale] }) input.shopId .transaction := by
  unfold createSale at h
  by_cases hres : (resolveProducts db input).length ≠ input.items.length
  · rw [if_pos hres] at h
    exact absurd (congrArg Prod.fst h) (by simp)
  · rw [if_neg hres] at h
    rw [not_not] at hres
    refine ⟨hres, ?_⟩
    cases hbuild : buildSaleItems (resolveProducts db input) input.items with
    | error e =>
      rw [hbuild] at h
      exact absurd (congrArg Prod.fst h) (by simp)
    | ok pr =>
      obtain ⟨saleItems, subtotal⟩ := pr
      rw [hbuild] at h
      simp only at h
      by_cases hpay : input.amountPaid - (subtotal - input.discount.getD 0 + 0) < 0
      · rw [if_pos hpay] at h
        exact absurd (congrArg Prod.fst h) (by simp)
      · rw [if_neg hpay] at h
        by_cases hinc : env.incrementOk = true
        · rw [if_pos hinc] at h
          have h1 := congrArg Prod.fst h
          have h2 := congrArg Prod.snd h
          simp only [Except.ok.injEq] at h1
          refine ⟨hinc, saleItems, subtotal, rfl, hpay, h1.symm, ?_⟩
          rw [← h1]
          exact h2.symm
        · rw [Bool.not_eq_true] at hinc
          rw [hinc] at h
          simp only [Bool.false_eq_true, if_false] at h
          exact absurd (congrArg Prod.fst h) (by simp)

/-- Spec-side per-line subtotal: the sum over cart lines of
sellPrice * quantity - lineDiscount for the looked-up product. -/
def specSubtotal (ps : List Product) (items : List SaleItemInput) : ℚ :=
  (items.map (fun item =>
    match ps.find? (fun p => p.id == item.productId) with
    | some p => p.sellPrice * (item.quantity : ℚ) - item.discount.getD 0
    | none => 0)).sum

theorem specSubtotal_congr {ps1 ps2 : List Product} {items : List SaleItemInput}
    (h : ∀ item ∈ items, ps1.find? (fun p => p.id == item.productId) =
      ps2.find? (fun p => p.id == item.productId)) :
    specSubtotal ps1 items = specSubtotal ps2 items := by
  unfold specSubtotal
  congr 1
  apply List.map_congr_left
  intro item hitem
  rw [h item hitem]

theorem buildSaleItems_ok {products : List Product} {items : List SaleItemInput}
    {saleItems : List SaleItem} {subtotal : ℚ}
    (h : buildSaleItems products items = .ok (saleItems, subtotal)) :
    subtotal = specSubtotal products items ∧ saleItems.length = items.length := by
  induction items generalizing saleItems subtotal with
  | nil =>
    rw [buildSaleItems] at h
    simp only [Except.ok.injEq, Prod.mk.injEq] at h
    simp [specSubtotal, ← h.1, ← h.2]
  | cons item rest ih =>
    rw [buildSaleItems] at h
    cases hfind : products.find? (fun x => x.id == item.productId) with
    | none =>
      simp only [hfind] at h
      exact absurd h (by simp)
    | some p =>
      simp only [hfind] at h
      by_cases hc : (p.trackStock && decide (p.quantity < item.quantity)) = true
      · rw [if_pos hc] at h
        exact absurd h (by simp)
      · rw [if_neg hc] at h
        cases hrec : buildSaleItems products rest with
        | error e =>
          simp only [hrec] at h
          exact absurd h (by simp)
        | ok pr =>
          obtain ⟨items2, sub2⟩ := pr
          simp only [hrec, Except.ok.injEq, Prod.mk.injEq] at h
          obtain ⟨h1, h2⟩ := h
          obtain ⟨hs, hlen⟩ := ih hrec
          constructor
          · rw [← h2, hs]
            simp [specSubtotal, hfind]
          · rw [← h1]
            simp [hlen]

/-- The monetary bookkeeping every completed sale must satisfy. -/
def amountsOk (s : Sale) : Prop :=
  s.totalAmount = s.subtotal - s.discount + s.tax ∧
  s.change = s.amountPaid - s.totalAmount ∧ 0 ≤ s.change

/-- The Sale row the createSale transaction inserts. -/
def mkSale (db : DB) (env : SaleEnv) (input : CreateSaleInput)
    (saleItems : List SaleItem) (subtotal : ℚ) : Sale :=
  { id := env.saleId, shopId := input.shopId, userId := input.userId,
    receiptNumber := "RCP-" ++ dateStrOf env.now ++ "-" ++
      padStart 4 (toString (countTodaySales db input.shopId env.now env.tzOffset + 1)),
    subtotal := subtotal, discount := input.discount.getD 0, tax := 0,
    totalAmount := subtotal - input.discount.getD 0 + 0,
    paymentMethod := input.paymentMethod, amountPaid := input.amountPaid,
    change := input.amountPaid - (subtotal - input.discount.getD 0 + 0),
    status := .COMPLETED, voidReason := none, createdAt := env.now, items := saleItems }

theorem applySaleStock_sales (sh : String) (u : Option String) (sid : String)
    (snapshot : List Product) (items : List SaleItemInput) (db : DB) :
    (applySaleStock sh u sid snapshot items db).sales = db.sales := by
  induction items generalizing db with
  | nil => rfl
  | cons item rest ih =>
    cases hfind : snapshot.find? (fun p => p.id == item.productId) with
    | none =>
      simp only [applySaleStock, hfind]
      exact ih db
    | some p =>
      by_cases ht : p.trackStock = true
      · simp only [applySaleStock, hfind, ht, if_true]
        exact ih _
      · rw [Bool.not_eq_true] at ht
        simp only [applySaleStock, hfind, ht, Bool.false_eq_true, if_false]
        exact ih db

theorem applyVoidStock_sales (sh : String) (u : Option String) (sid r : String)
    (items : List SaleItem) (db : DB) :
    (applyVoidStock sh u sid r items db).sales = db.sales := by
  induction items generalizing db with
  | nil => rfl
  | cons item rest ih =>
    cases hfind : db.products.find? (fun p => p.id == item.productId) with
    | none =>
      simp only [applyVoidStock, hfind]
      exact ih db
    | some p =>
      by_cases ht : p.trackStock = true
      · simp only [applyVoidStock, hfind, ht, if_true]
        exact ih _
      · rw [Bool.not_eq_true] at ht
        simp only [applyVoidStock, hfind, ht, Bool.false_eq_true, if_false]
        exact ih db

theorem applyReceiveStock_sales {input : ReceiveStockInput} {snapshot : List Product}
    {items : List ReceiveItemInput} {db db2 : DB}
    (h : applyReceiveStock input snapshot items db = .ok db2) :
    db2.sales = db.sales := by
  induction items generalizing db with
  | nil =>
    rw [applyReceiveStock] at h
    cases h
    rfl
  | cons item rest ih =>
    rw [applyReceiveStock] at h
    by_cases hq : item.quantity ≤ 0
    · rw [if_pos hq] at h
      cases h
    · rw [if_neg hq] at h
      cases hfind : snapshot.find? (fun p => p.id == item.productId) with
      | none =>
        simp only [hfind] at h
        cases h
      | some p =>
        simp only [hfind] at h
        have h2 := ih h
        rw [h2]

theorem foldl_increment_sales (sh : String) (t : UsageType) {α : Type}
    (l : List α) (db : DB) :
    (l.foldl (fun d _ => incrementUsage d sh t) db).sales = db.sales := by
  induction l generalizing db with
  | nil => rfl
  | cons a rest ih => exact ih _

theorem adjustStock_sales (db : DB) (input : AdjustStockInput) (incrementOk : Bool) :
    (adjustStock db input incrementOk).2.sales = db.sales := by
  unfold adjustStock
  cases hfind : db.products.find? (fun p =>
      p.id == input.productId && p.shopId == input.shopId) with
  | none => rfl
  | some product =>
    simp only
    by_cases hneg : product.quantity + input.quantity < 0
    · rw [if_pos hneg]
    · rw [if_neg hneg]
      cases incrementOk <;> rfl

theorem receiveStock_sales (db : DB) (input : ReceiveStockInput) (incrementOk : Bool) :
    (receiveStock db input incrementOk).2.sales = db.sales := by
  unfold receiveStock
  by_cases hres : (db.products.filter (fun p =>
      (input.items.map (fun i => i.productId)).contains p.id &&
      p.shopId == input.shopId)).length ≠ input.items.length
  · rw [if_pos hres]
  · rw [if_neg hres]
    cases happ : applyReceiveStock input (db.products.filter (fun p =>
        (input.items.map (fun i => i.productId)).contains p.id &&
        p.shopId == input.shopId)) input.items db with
    | error e =>
      simp only [happ]
    | ok db2 =>
      simp only [happ]
      cases incrementOk with
      | true =>
        show (input.items.foldl (fun d _ =>
          incrementUsage d input.shopId .stockMove) db2).sales = db.sales
        rw [foldl_increment_sales]
        exact applyReceiveStock_sales happ
      | false => exact applyReceiveStock_sales happ

/-- Sales present after a createSale call: either the call changed nothing,
or it appended exactly the transaction's sale row, whose validation and
payment checks passed. -/
theorem createSale_sales_cases (db : DB) (env : SaleEnv) (input : CreateSaleInput) :
    (createSale db env input).2.sales = db.sales ∨
    ∃ saleItems subtotal,
      buildSaleItems (resolveProducts db input) input.items = .ok (saleItems, subtotal) ∧
      ¬(input.amountPaid - (subtotal - input.discount.getD 0 + 0) < 0) ∧
      (createSale db env input).2.sales =
        db.sales ++ [mkSale db env input saleItems subtotal] := by
  unfold createSale
  by_cases hres : (resolveProducts db input).length ≠ input.items.length
  · rw [if_pos hres]
    exact Or.inl rfl
  · rw [if_neg hres]
    cases hbuild : buildSaleItems (resolveProducts db input) input.items with
    | error e => exact Or.inl rfl
    | ok pr =>
      obtain ⟨saleItems, subtotal⟩ := pr
      simp only
      by_cases hpay : input.amountPaid - (subtotal - input.discount.getD 0 + 0) < 0
      · rw [if_pos hpay]
        exact Or.inl rfl
      · rw [if_neg hpay]
        refine Or.inr ⟨saleItems, subtotal, rfl, hpay, ?_⟩
        by_cases hinc : env.incrementOk = true
        · rw [if_pos hinc]
          show (applySaleStock input.shopId input.userId env.saleId
            (resolveProducts db input) input.items _).sales = _
          rw [applySaleStock_sales]
          rfl
        · rw [Bool.not_eq_true] at hinc
          rw [hinc]
          simp only [Bool.false_eq_true, if_false]
          show (applySaleStock input.shopId input.userId env.saleId
            (resolveProducts db input) input.items _).sales = _
          rw [applySaleStock_sales]
          rfl

theorem salesOk_applyOp (db : DB) (op : Op)
    (hok : ∀ s ∈ db.sales, amountsOk s) :
    ∀ s ∈ (applyOp db op).sales, amountsOk s := by
  intro s hs
  cases op with
  | sale env input =>
    simp only [applyOp] at hs
    rcases createSale_sales_cases db env input with hc | ⟨si, sub, hb, hpay, hc⟩
    · rw [hc] at hs
      exact hok s hs
    · rw [hc] at hs
      rcases List.mem_append.mp hs with h1 | h2
      · exact hok s h1
      · rw [List.mem_singleton.mp h2]
        exact ⟨rfl, rfl, not_lt.mp hpay⟩
  | void saleId shopId userId reason =>
    simp only [applyOp] at hs
    unfold voidSale at hs
    cases hfind : db.sales.find? (fun x =>
        x.id == saleId && x.shopId == shopId && decide (x.status = SaleStatus.COMPLETED)) with
    | none =>
      rw [hfind] at hs
      exact hok s hs
    | some sale =>
      rw [hfind] at hs
      simp only at hs
      rw [applyVoidStock_sales] at hs
      simp only [setVoided, List.mem_map] at hs
      obtain ⟨s0, hs0, hmap⟩ := hs
      rw [← hmap]
      by_cases hid : (s0.id == saleId) = true
      · rw [if_pos hid]
        exact hok s0 hs0
      · rw [if_neg hid]
        exact hok s0 hs0
  | adjust input incrementOk =>
    simp only [applyOp] at hs
    rw [adjustStock_sales] at hs
    exact hok s hs
  | receive input incrementOk =>
    simp only [applyOp] at hs
    rw [receiveStock_sales] at hs
    exact hok s hs

theorem salesOk_runOps (s0 : DB) (ops : List Op)
    (hok : ∀ s ∈ s0.sales, amountsOk s) :
    ∀ s ∈ (runOps s0 ops).sales, amountsOk s := by
  induction ops generalizing s0 with
  | nil => exact hok
  | cons op rest ih => exact ih _ (salesOk_applyOp s0 op hok)

theorem buildSaleItems_no_payment {products : List Product} {items : List SaleItemInput}
    {r v : ℚ} :
    buildSaleItems products items ≠ .error (.insufficientPayment r v) := by
  induction items with
  | nil => simp [buildSaleItems]
  | cons item rest ih =>
    intro h
    rw [buildSaleItems] at h
    cases hfind : products.find? (fun x => x.id == item.productId) with
    | none =>
      simp only [hfind] at h
      exact absurd h (by simp)
    | some p =>
      simp only [hfind] at h
      by_cases hc : (p.trackStock && decide (p.quantity < item.quantity)) = true
      · rw [if_pos hc] at h
        exact absurd h (by simp)
      · rw [if_neg hc] at h
        cases hrec : buildSaleItems products rest with
        | error e2 =>
          simp only [hrec, Except.error.injEq] at h
          rw [h] at hrec
          exact ih hrec
        | ok pr =>
          obtain ⟨items2, sub2⟩ := pr
          simp only [hrec] at h
          exact absurd h (by simp)

/-- C7 claim: every completed sale satisfies totalAmount = subtotal -
discount + tax with tax = 0 and change = amountPaid - totalAmount ≥ 0,
subtotal is the per-line sum of sellPrice * quantity - lineDiscount,
underpayment is rejected reporting required and received, and no later
core operation breaks the invariant for any stored sale. -/
theorem sale_amount_invariants :
    (∀ db env input sale db2, createSale db env input = (Except.ok sale, db2) →
      sale.tax = 0 ∧
      sale.totalAmount = sale.subtotal - sale.discount + sale.tax ∧
      sale.change = sale.amountPaid - sale.totalAmount ∧
      0 ≤ sale.change ∧
      sale.amountPaid = input.amountPaid ∧
      sale.discount = input.discount.getD 0 ∧
      sale.subtotal = specSubtotal (resolveProducts db input) input.items) ∧
    (∀ db env input r v,
      (createSale db env input).1 = Except.error (.insufficientPayment r v) →
      v = input.amountPaid ∧ v < r) ∧
    (∀ s0 ops, (∀ s ∈ s0.sales, amountsOk s) →
      ∀ s ∈ (runOps s0 ops).sales, amountsOk s) := by
  refine ⟨?_, ?_, fun s0 ops h => salesOk_runOps s0 ops h⟩
  · intro db env input sale db2 h
    obtain ⟨hres, hinc, saleItems, subtotal, hbuild, hpay, hsale, hdb2⟩ := createSale_ok_inv h
    obtain ⟨hsub, hlen⟩ := buildSaleItems_ok hbuild
    subst hsale
    exact ⟨rfl, rfl, rfl, not_lt.mp hpay, rfl, rfl, hsub⟩
  · intro db env input r v h
    unfold createSale at h
    by_cases hres : (resolveProducts db input).length ≠ input.items.length
    · rw [if_pos hres] at h
      exact absurd h (by simp)
    · rw [if_neg hres] at h
      cases hbuild : buildSaleItems (resolveProducts db input) input.items with
      | error e =>
        rw [hbuild] at h
        simp only [Except.error.injEq] at h
        rw [h] at hbuild
        exact absurd hbuild buildSaleItems_no_payment
      | ok pr =>
        obtain ⟨saleItems, subtotal⟩ := pr
        rw [hbuild] at h
        simp only at h
        by_cases hpay : input.amountPaid - (subtotal - input.discount.getD 0 + 0) < 0
        · rw [if_pos hpay] at h
          simp only [Except.error.injEq, SaleError.insufficientPayment.injEq] at h
          refine ⟨h.2.symm, ?_⟩
          rw [← h.1, ← h.2]
          exact sub_neg.mp hpay
        · rw [if_neg hpay] at h
          by_cases hinc : env.incrementOk = true
          · rw [if_pos hinc] at h
            exact absurd h (by simp)
          · rw [Bool.not_eq_true] at hinc
            rw [hinc] at h
            simp only [Bool.false_eq_true, if_false] at h
            exact absurd h (by simp)

/-- The Sale row the sample cart produces: receipt RCP-260212-0001,
subtotal 36, change 4. -/
def sampleSale : Sale :=
  { id := "SALE1", shopId := "S1", userId := some "U1",
    receiptNumber := "RCP-260212-0001", subtotal := 36, discount := 0, tax := 0,
    totalAmount := 36, paymentMethod := .CASH, amountPaid := 40, change := 4,
    status := .COMPLETED, voidReason := none,
    createdAt := daysFromCivil 2026 2 12 * 1440 + 23 * 60,
    items := [{ productId := "P1", productName := "Widget", quantity := 3,
                unitPrice := 12, costPrice := 8, discount := 0, totalPrice := 36 }] }

attribute [local semireducible] Rat.add Rat.sub Rat.mul in
set_option maxRecDepth 4096 in
theorem sale_amount_invariants_witness :
    (sampleSale.tax = 0 ∧
     sampleSale.totalAmount = sampleSale.subtotal - sampleSale.discount + sampleSale.tax ∧
     sampleSale.change = sampleSale.amountPaid - sampleSale.totalAmount ∧
     0 ≤ sampleSale.change ∧
     sampleSale.amountPaid = sampleInput.amountPaid ∧
     sampleSale.discount = sampleInput.discount.getD 0 ∧
     sampleSale.subtotal = specSubtotal (resolveProducts sampleDB sampleInput) sampleInput.items) ∧
    (∀ s ∈ (runOps sampleDB sampleOps).sales, amountsOk s) :=
  ⟨sale_amount_invariants.1 sampleDB sampleEnv sampleInput sampleSale
      (createSale sampleDB sampleEnv sampleInput).2 (by decide),
   sale_amount_invariants.2.2 sampleDB sampleOps (by simp [sampleDB])⟩

/-- The first cart line failing the per-line stock check, with the failing
product's name and available quantity, looked up in the given table. -/
def firstStockFailureIn (ps : List Product) (items : List SaleItemInput) :
    Option (String × ℤ) :=
  items.findSome? (fun item =>
    match ps.find? (fun p => p.id == item.productId) with
    | some p =>
      if p.trackStock && decide (p.quantity < item.quantity) then
        some (p.name, p.quantity)
      else none
    | none => none)

/-- The first cart line failing the stock check against the live table. -/
def firstStockFailure (db : DB) (input : CreateSaleInput) : Option (String × ℤ) :=
  firstStockFailureIn db.products input.items

theorem findSome?_congr {α β : Type} (f g : α → Option β) (l : List α)
    (h : ∀ a ∈ l, f a = g a) : l.findSome? f = l.findSome? g := by
  induction l with
  | nil => rfl
  | cons a t ih =>
    rw [List.findSome?_cons, List.findSome?_cons, h a (by simp)]
    cases g a with
    | none => exact ih (fun x hx => h x (by simp [hx]))
    | some b => rfl

theorem firstStockFailureIn_congr {ps1 ps2 : List Product} {items : List SaleItemInput}
    (h : ∀ item ∈ items, ps1.find? (fun p => p.id == item.productId) =
      ps2.find? (fun p => p.id == item.productId)) :
    firstStockFailureIn ps1 items = firstStockFailureIn ps2 items := by
  unfold firstStockFailureIn
  apply findSome?_congr
  intro item hitem
  rw [h item hitem]

theorem buildSaleItems_firstFail {ps : List Product} {items : List SaleItemInput}
    (hfound : ∀ item ∈ items, ∃ p, ps.find? (fun x => x.id == item.productId) = some p) :
    (∀ n a, firstStockFailureIn ps items = some (n, a) →
      buildSaleItems ps items = .error (.insufficientStock n a)) ∧
    (∀ si sub, buildSaleItems ps items = .ok (si, sub) →
      firstStockFailureIn ps items = none) := by
  induction items with
  | nil =>
    constructor
    · intro n a h
      simp [firstStockFailureIn] at h
    · intro si sub h
      rfl
  | cons item rest ih =>
    obtain ⟨p, hfind⟩ := hfound item (by simp)
    have ihr := ih (fun x hx => hfound x (by simp [hx]))
    by_cases hc : (p.trackStock && decide (p.quantity < item.quantity)) = true
    · constructor
      · intro n a h
        rw [firstStockFailureIn, List.findSome?_cons] at h
        simp only [hfind, hc, if_true] at h
        rw [buildSaleItems]
        simp only [hfind, hc, if_true]
        simp only [Option.some.injEq, Prod.mk.injEq] at h
        rw [h.1, h.2]
      · intro si sub h
        rw [buildSaleItems] at h
        simp only [hfind, hc, if_true] at h
        exact absurd h (by simp)
    · have hcf : (p.trackStock && decide (p.quantity < item.quantity)) = false :=
        Bool.not_eq_true _ ▸ hc
      constructor
      · intro n a h
        rw [firstStockFailureIn, List.findSome?_cons] at h
        simp only [hfind, hcf, Bool.false_eq_true, if_false] at h
        rw [buildSaleItems]
        simp only [hfind, hcf, Bool.false_eq_true, if_false]
        have herr := ihr.1 n a h
        rw [herr]
      · intro si sub h
        rw [buildSaleItems] at h
        simp only [hfind, hcf, Bool.false_eq_true, if_false] at h
        rw [firstStockFailureIn, List.findSome?_cons]
        simp only [hfind, hcf, Bool.false_eq_true, if_false]
        cases hrec : buildSaleItems ps rest with
        | error e =>
          simp only [hrec] at h
          exact absurd h (by simp)
        | ok pr =>
          obtain ⟨si2, sub2⟩ := pr
          exact ihr.2 si2 sub2 hrec

theorem resolve_success_of {φ : Product → Bool} (ps : List Product) (ids : List String)
    (hφ : ∀ p, φ p = true → ids.contains p.id = true)
    (hnd : (ps.map (fun p => p.id)).Nodup)
    (hlen : (ps.filter φ).length = ids.length) :
    ids.Nodup ∧ ∀ i ∈ ids, ∃ p,
      (ps.filter φ).find? (fun x => x.id == i) = some p ∧
      ps.find? (fun x => x.id == i) = some p ∧ φ p = true :=
  resolve_success hφ hnd hlen

/-- C9 claim: validation order is fixed — resolution first (ProductNotFound),
then per-line stock checks in cart order reporting the first failing line,
then payment last; an under-stocked and under-paid cart therefore reports
InsufficientStock, never InsufficientPayment. -/
theorem validation_order (db : DB) (env : SaleEnv) (input : CreateSaleInput)
    (hnd : (db.products.map (fun p => p.id)).Nodup) :
    ((resolveProducts db input).length ≠ input.items.length →
      (createSale db env input).1 = .error .productNotFound) ∧
    (∀ n a, (resolveProducts db input).length = input.items.length →
      firstStockFailure db input = some (n, a) →
      (createSale db env input).1 = .error (.insufficientStock n a)) ∧
    (∀ r v, (createSale db env input).1 = .error (.insufficientPayment r v) →
      (resolveProducts db input).length = input.items.length ∧
      firstStockFailure db input = none) := by
  refine ⟨?_, ?_, ?_⟩
  · intro hres
    unfold createSale
    rw [if_pos hres]
  · intro n a hres hfail
    have hr := resolve_success_of db.products
      (input.items.map (fun i => i.productId))
      (fun p hp => ((Bool.and_eq_true _ _).mp ((Bool.and_eq_true _ _).mp hp).1).1)
      hnd (by rw [List.length_map]; exact hres)
    have hagree : ∀ item ∈ input.items,
        (resolveProducts db input).find? (fun x => x.id == item.productId) =
        db.products.find? (fun x => x.id == item.productId) := by
      intro item hitem
      obtain ⟨p, h1, h2, _⟩ := hr.2 item.productId (List.mem_map_of_mem _ hitem)
      unfold resolveProducts
      rw [h1, h2]
    have hfound2 : ∀ item ∈ input.items, ∃ p,
        (resolveProducts db input).find? (fun x => x.id == item.productId) = some p := by
      intro item hitem
      obtain ⟨p, h1, _, _⟩ := hr.2 item.productId (List.mem_map_of_mem _ hitem)
      exact ⟨p, h1⟩
    have hsnap : firstStockFailureIn (resolveProducts db input) input.items = some (n, a) := by
      rw [firstStockFailureIn_congr hagree]
      exact hfail
    have hbuild := (buildSaleItems_firstFail hfound2).1 n a hsnap
    unfold createSale
    rw [if_neg (by rw [hres]; exact fun hc => hc rfl), hbuild]
  · intro r v h
    unfold createSale at h
    by_cases hres : (resolveProducts db input).length ≠ input.items.length
    · rw [if_pos hres] at h
      exact absurd h (by simp)
    · rw [if_neg hres] at h
      rw [not_not] at hres
      refine ⟨hres, ?_⟩
      have hr := resolve_success_of db.products
        (input.items.map (fun i => i.productId))
        (fun p hp => ((Bool.and_eq_true _ _).mp ((Bool.and_eq_true _ _).mp hp).1).1)
        hnd (by rw [List.length_map]; exact hres)
      have hagree : ∀ item ∈ input.items,
          (resolveProducts db input).find? (fun x => x.id == item.productId) =
          db.products.find? (fun x => x.id == item.productId) := by
        intro item hitem
        obtain ⟨p, h1, h2, _⟩ := hr.2 item.productId (List.mem_map_of_mem _ hitem)
        unfold resolveProducts
        rw [h1, h2]
      have hfound2 : ∀ item ∈ input.items, ∃ p,
          (resolveProducts db input).find? (fun x => x.id == item.productId) = some p := by
        intro item hitem
        obtain ⟨p, h1, _, _⟩ := hr.2 item.productId (List.mem_map_of_mem _ hitem)
        exact ⟨p, h1⟩
      cases hbuild : buildSaleItems (resolveProducts db input) input.items with
      | error e =>
        rw [hbuild] at h
        simp only [Except.error.injEq] at h
        rw [h] at hbuild
        exact absurd hbuild buildSaleItems_no_payment
      | ok pr =>
        obtain ⟨saleItems, subtotal⟩ := pr
        rw [firstStockFailure, ← firstStockFailureIn_congr hagree]
        exact (buildSaleItems_firstFail hfound2).2 saleItems subtotal hbuild

/-- Sample cart that is under-stocked and under-paid at once. -/
def sampleInputBoth : CreateSaleInput :=
  { shopId := "S1", userId := some "U1",
    items := [{ productId := "P1", quantity := 11, discount := none }],
    paymentMethod := .CASH, amountPaid := 1, discount := none }

theorem validation_order_witness :
    firstStockFailure sampleDB sampleInputBoth = some ("Widget", 10) ∧
    sampleInputBoth.amountPaid = 1 ∧
    (createSale sampleDB sampleEnv sampleInputBoth).1 =
      .error (.insufficientStock "Widget" 10) :=
  ⟨by decide, rfl,
   (validation_order sampleDB sampleEnv sampleInputBoth (by decide)).2.1 "Widget" 10
     (by decide) (by decide)⟩

/-- The SALE ledger entries one createSale transaction appends, computed
from the stale resolution snapshot exactly as the source loop does. -/
def saleEntries (sh : String) (u : Option String) (sid : String)
    (snapshot : List Product) (items : List SaleItemInput) : List StockLog :=
  items.filterMap (fun item =>
    match snapshot.find? (fun p => p.id == item.productId) with
    | some p =>
      if p.trackStock then
        some { shopId := sh, productId := item.productId, userId := u,
               type := .SALE, quantity := -item.quantity, previousQty := p.quantity,
               newQty := p.quantity - item.quantity, reference := some sid, note := none }
      else none
    | none => none)

theorem applySaleStock_ledger (sh : String) (u : Option String) (sid : String)
    (snapshot : List Product) (items : List SaleItemInput) (db : DB) :
    (applySaleStock sh u sid snapshot items db).ledger =
      db.ledger ++ saleEntries sh u sid snapshot items := by
  induction items generalizing db with
  | nil => simp [applySaleStock, saleEntries]
  | cons item rest ih =>
    cases hfind : snapshot.find? (fun p => p.id == item.productId) with
    | none =>
      simp only [applySaleStock, hfind]
      rw [ih db]
      simp [saleEntries, List.filterMap_cons, hfind]
    | some p =>
      by_cases ht : p.trackStock = true
      · simp only [applySaleStock, hfind, ht, if_true]
        rw [ih _]
        simp only [saleEntries, List.filterMap_cons, hfind, ht, if_true]
        simp [List.append_assoc]
      · rw [Bool.not_eq_true] at ht
        simp only [applySaleStock, hfind, ht, Bool.false_eq_true, if_false]
        rw [ih db]
        simp [saleEntries, List.filterMap_cons, hfind, ht]

theorem saleEntries_filter_not_mem {sh : String} {u : Option String} {sid : String}
    {snapshot : List Product} {items : List SaleItemInput} {pid : String}
    (hnot : ∀ it ∈ items, it.productId ≠ pid) :
    (saleEntries sh u sid snapshot items).filter (fun e => e.productId == pid) = [] := by
  induction items with
  | nil => rfl
  | cons item rest ih =>
    have hne : item.productId ≠ pid := hnot item (by simp)
    have ihr := ih (fun it hit => hnot it (by simp [hit]))
    cases hfind : snapshot.find? (fun p => p.id == item.productId) with
    | none => simpa [saleEntries, List.filterMap_cons, hfind] using ihr
    | some p =>
      by_cases ht : p.trackStock = true
      · simp only [saleEntries, List.filterMap_cons, hfind, ht, if_true]
        rw [List.filter_cons_of_neg (by simpa using hne)]
        exact ihr
      · rw [Bool.not_eq_true] at ht
        simpa [saleEntries, List.filterMap_cons, hfind, ht] using ihr

theorem saleEntries_filter_mem {sh : String} {u : Option String} {sid : String}
    {snapshot : List Product} {items : List SaleItemInput} {item : SaleItemInput}
    {p : Product}
    (hdist : (items.map (fun i => i.productId)).Nodup)
    (hmem : item ∈ items)
    (hfind : snapshot.find? (fun x => x.id == item.productId) = some p) :
    (saleEntries sh u sid snapshot items).filter (fun e => e.productId == item.productId) =
      if p.trackStock then
        [{ shopId := sh, productId := item.productId, userId := u,
           type := .SALE, quantity := -item.quantity, previousQty := p.quantity,
           newQty := p.quantity - item.quantity, reference := some sid, note := none }]
      else [] := by
  induction items with
  | nil => simp at hmem
  | cons a rest ih =>
    rw [List.map_cons, List.nodup_cons] at hdist
    rcases List.mem_cons.mp hmem with rfl | hmem2
    · have hrest : (saleEntries sh u sid snapshot rest).filter
          (fun e => e.productId == item.productId) = [] :=
        saleEntries_filter_not_mem (fun it hit hc =>
          hdist.1 (hc ▸ List.mem_map_of_mem (fun i => i.productId) hit))
      by_cases ht : p.trackStock = true
      · simp only [saleEntries, List.filterMap_cons, hfind, ht, if_true] at hrest ⊢
        rw [List.filter_cons_of_pos (by simp)]
        rw [hrest]
      · rw [Bool.not_eq_true] at ht
        simp only [saleEntries, List.filterMap_cons, hfind, ht, Bool.false_eq_true,
          if_false] at hrest ⊢
        exact hrest
    · have hane : a.productId ≠ item.productId := by
        intro hc
        exact hdist.1 (hc ▸ List.mem_map_of_mem (fun i => i.productId) hmem2)
      have ihr := ih hdist.2 hmem2
      cases hfa : snapshot.find? (fun x => x.id == a.productId) with
      | none => simpa [saleEntries, List.filterMap_cons, hfa] using ihr
      | some q =>
        by_cases htq : q.trackStock = true
        · simp only [saleEntries, List.filterMap_cons, hfa, htq, if_true] at ihr ⊢
          rw [List.filter_cons_of_neg (by simpa using hane)]
          exact ihr
        · rw [Bool.not_eq_true] at htq
          simpa [saleEntries, List.filterMap_cons, hfa, htq] using ihr

theorem applySaleStock_find?_frame {sh : String} {u : Option String} {sid : String}
    {snapshot : List Product} {items : List SaleItemInput} {pid : String} (db : DB)
    (hnot : ∀ it ∈ items, it.productId ≠ pid) :
    (applySaleStock sh u sid snapshot items db).products.find? (fun x => x.id == pid) =
      db.products.find? (fun x => x.id == pid) := by
  induction items generalizing db with
  | nil => rfl
  | cons item rest ih =>
    have hne : item.productId ≠ pid := hnot item (by simp)
    have ihr := fun d => ih d (fun it hit => hnot it (by simp [hit]))
    cases hfind : snapshot.find? (fun x => x.id == item.productId) with
    | none =>
      simp only [applySaleStock, hfind]
      exact ihr db
    | some p =>
      by_cases ht : p.trackStock = true
      · simp only [applySaleStock, hfind, ht, if_true]
        rw [ihr _]
        show (updateQty db.products item.productId
          (p.quantity - item.quantity)).find? (fun x => x.id == pid) = _
        exact @find?_updateQty_ne db.products item.productId pid _ (fun hc => hne hc.symm)
      · rw [Bool.not_eq_true] at ht
        simp only [applySaleStock, hfind, ht, Bool.false_eq_true, if_false]
        exact ihr db

theorem applySaleStock_find?_mem {sh : String} {u : Option String} {sid : String}
    {snapshot : List Product} {items : List SaleItemInput} {item : SaleItemInput}
    {p : Product} (db : DB)
    (hdist : (items.map (fun i => i.productId)).Nodup)
    (hmem : item ∈ items)
    (hsnap : snapshot.find? (fun x => x.id == item.productId) = some p)
    (hdb : db.products.find? (fun x => x.id == item.productId) = some p) :
    (applySaleStock sh u sid snapshot items db).products.find?
        (fun x => x.id == item.productId) =
      some (if p.trackStock then { p with quantity := p.quantity - item.quantity } else p) := by
  induction items generalizing db with
  | nil => simp at hmem
  | cons a rest ih =>
    rw [List.map_cons, List.nodup_cons] at hdist
    rcases List.mem_cons.mp hmem with rfl | hmem2
    · have hnot : ∀ it ∈ rest, it.productId ≠ item.productId := fun it hit hc =>
        hdist.1 (hc ▸ List.mem_map_of_mem (fun i => i.productId) hit)
      by_cases ht : p.trackStock = true
      · simp only [applySaleStock, hsnap, ht, if_true]
        rw [applySaleStock_find?_frame _ hnot]
        show (updateQty db.products item.productId
          (p.quantity - item.quantity)).find? (fun x => x.id == item.productId) = _
        rw [@find?_updateQty_self db.products item.productId p _ hdb, ht]
      · rw [Bool.not_eq_true] at ht
        simp only [applySaleStock, hsnap, ht, Bool.false_eq_true, if_false]
        rw [applySaleStock_find?_frame db hnot]
        exact hdb
    · have hane : a.productId ≠ item.productId := by
        intro hc
        exact hdist.1 (hc ▸ List.mem_map_of_mem (fun i => i.productId) hmem2)
      cases hfa : snapshot.find? (fun x => x.id == a.productId) with
      | none =>
        simp only [applySaleStock, hfa]
        exact ih db hdist.2 hmem2 hdb
      | some q =>
        by_cases htq : q.trackStock = true
        · simp only [applySaleStock, hfa, htq, if_true]
          refine ih _ hdist.2 hmem2 ?_
          show (updateQty db.products a.productId
            (q.quantity - a.quantity)).find? (fun x => x.id == item.productId) = some p
          rw [@find?_updateQty_ne db.products a.productId item.productId _
            (fun hc => hane hc.symm)]
          exact hdb
        · rw [Bool.not_eq_true] at htq
          simp only [applySaleStock, hfa, htq, Bool.false_eq_true, if_false]
          exact ih db hdist.2 hmem2 hdb

theorem incrementUsage_products (db : DB) (sh : String) (t : UsageType) :
    (incrementUsage db sh t).products = db.products := rfl

theorem incrementUsage_ledger (db : DB) (sh : String) (t : UsageType) :
    (incrementUsage db sh t).ledger = db.ledger := rfl

/-- C2 claim: a successful createSale persists a COMPLETED sale with its
items; each tracked line decrements the product by the line quantity and
appends exactly one SALE entry with delta -quantity, previousQty the
quantity observed at resolution, newQty = previousQty - quantity and
reference the sale id; untracked lines change nothing and log nothing. -/
theorem createSale_success_effects (db : DB) (env : SaleEnv) (input : CreateSaleInput)
    (sale : Sale) (db2 : DB)
    (hnd : (db.products.map (fun p => p.id)).Nodup)
    (h : createSale db env input = (Except.ok sale, db2)) :
    sale.status = SaleStatus.COMPLETED ∧
    sale.id = env.saleId ∧
    db2.sales = db.sales ++ [sale] ∧
    sale.items.length = input.items.length ∧
    ∀ item ∈ input.items, ∃ p,
      db.products.find? (fun x => x.id == item.productId) = some p ∧
      p.shopId = input.shopId ∧ p.isActive = true ∧
      (p.trackStock = true →
        qtyOf db2 item.productId = p.quantity - item.quantity ∧
        (db2.ledger.drop db.ledger.length).filter (fun e => e.productId == item.productId) =
          [{ shopId := input.shopId, productId := item.productId, userId := input.userId,
             type := .SALE, quantity := -item.quantity, previousQty := p.quantity,
             newQty := p.quantity - item.quantity, reference := some env.saleId,
             note := none }]) ∧
      (p.trackStock = false →
        qtyOf db2 item.productId = p.quantity ∧
        (db2.ledger.drop db.ledger.length).filter
          (fun e => e.productId == item.productId) = []) := by
  obtain ⟨hres, hinc, si, sub, hbuild, hpay, hsale, hdb2⟩ := createSale_ok_inv h
  have hr := resolve_success_of db.products
    (input.items.map (fun i => i.productId))
    (fun p hp => ((Bool.and_eq_true _ _).mp ((Bool.and_eq_true _ _).mp hp).1).1)
    hnd (by rw [List.length_map]; exact hres)
  have hdist := hr.1
  have hsales : db2.sales = db.sales ++ [sale] := by
    rw [hdb2]
    show (applySaleStock input.shopId input.userId env.saleId
      (resolveProducts db input) input.items _).sales = _
    rw [applySaleStock_sales]
  have hled : db2.ledger = db.ledger ++ saleEntries input.shopId input.userId env.saleId
      (resolveProducts db input) input.items := by
    rw [hdb2, incrementUsage_ledger, applySaleStock_ledger]
  have hdrop : db2.ledger.drop db.ledger.length = saleEntries input.shopId input.userId
      env.saleId (resolveProducts db input) input.items := by
    rw [hled]
    exact List.drop_left _ _
  refine ⟨by rw [hsale], by rw [hsale], hsales, ?_, ?_⟩
  · rw [hsale]
    exact (buildSaleItems_ok hbuild).2
  · intro item hitem
    obtain ⟨p, hsnapF, hdbF, hφ⟩ := hr.2 item.productId (List.mem_map_of_mem _ hitem)
    have hsnap : (resolveProducts db input).find? (fun x => x.id == item.productId) = some p := hsnapF
    have hφ2 := (Bool.and_eq_true _ _).mp hφ
    have hφ3 := (Bool.and_eq_true _ _).mp hφ2.1
    have hqfind := @applySaleStock_find?_mem input.shopId input.userId env.saleId
      (resolveProducts db input) input.items item p
      { db with sales := db.sales ++ [sale] } hdist hitem hsnap hdbF
    have hqfind2 : db2.products.find? (fun x => x.id == item.productId) =
        some (if p.trackStock = true then
          { p with quantity := p.quantity - item.quantity } else p) := by
      rw [hdb2, incrementUsage_products]
      exact hqfind
    refine ⟨p, hdbF, by simpa using hφ3.2, by simpa using hφ2.2, ?_, ?_⟩
    · intro ht
      constructor
      · rw [ht, if_pos rfl] at hqfind2
        exact qtyOf_eq_of_find? hqfind2
      · rw [hdrop, saleEntries_filter_mem hdist hitem hsnap, if_pos ht]
    · intro ht
      constructor
      · rw [ht] at hqfind2
        simp only [Bool.false_eq_true, if_false] at hqfind2
        exact qtyOf_eq_of_find? hqfind2
      · rw [hdrop, saleEntries_filter_mem hdist hitem hsnap,
          if_neg (by rw [ht]; exact fun hc => Bool.false_ne_true hc)]

/-- Sample cart selling the exact last ten units of P1. -/
def sampleInputLast : CreateSaleInput :=
  { shopId := "S1", userId := some "U1",
    items := [{ productId := "P1", quantity := 10, discount := none }],
    paymentMethod := .CASH, amountPaid := 120, discount := none }

attribute [local semireducible] Rat.add Rat.sub Rat.mul in
set_option maxRecDepth 4096 in
theorem createSale_success_effects_witness :
    sampleSale.status = SaleStatus.COMPLETED ∧
    sampleSale.subtotal = 36 ∧ sampleSale.totalAmount = 36 ∧ sampleSale.change = 4 ∧
    qtyOf (createSale sampleDB sampleEnv sampleInput).2 "P1" = 7 ∧
    ((createSale sampleDB sampleEnv sampleInput).2.ledger.drop 0).filter
      (fun e => e.productId == "P1") =
      [{ shopId := "S1", productId := "P1", userId := some "U1",
         type := .SALE, quantity := -3, previousQty := 10,
         newQty := 7, reference := some "SALE1", note := none }] ∧
    (createSale sampleDB sampleEnv sampleInputLast).1.toOption.isSome = true ∧
    qtyOf (createSale sampleDB sampleEnv sampleInputLast).2 "P1" = 0 ∧
    (createSale sampleDB sampleEnv sampleInput).2.sales = sampleDB.sales ++ [sampleSale] :=
  ⟨(createSale_success_effects sampleDB sampleEnv sampleInput sampleSale
      (createSale sampleDB sampleEnv sampleInput).2 (by decide) (by decide)).1,
   by decide, by decide, by decide, by decide, by decide, by decide, by decide,
   (createSale_success_effects sampleDB sampleEnv sampleInput sampleSale
      (createSale sampleDB sampleEnv sampleInput).2 (by decide) (by decide)).2.2.1⟩

/-- Full effect of the voidSale restoration loop, per product id: RETURN
entries carry the void metadata; products whose (first-match) row is
missing or untracked are untouched and get no entries; tracked products
gain the summed item quantities, with one entry per item line. -/
theorem applyVoidStock_effects (sh : String) (u : Option String) (sid r : String)
    (items : List SaleItem) (db : DB) :
    ∃ new, (applyVoidStock sh u sid r items db).ledger = db.ledger ++ new ∧
      (∀ e ∈ new, e.type = .RETURN ∧ e.shopId = sh ∧ e.userId = u ∧
        e.reference = some sid ∧ e.note = some ("Voided: " ++ r) ∧
        e.newQty = e.previousQty + e.quantity) ∧
      ∀ pid,
        ((∀ q, db.products.find? (fun x => x.id == pid) = some q →
            q.trackStock = false) →
          (applyVoidStock sh u sid r items db).products.find? (fun x => x.id == pid) =
            db.products.find? (fun x => x.id == pid) ∧
          new.filter (fun e => e.productId == pid) = []) ∧
        (∀ q, db.products.find? (fun x => x.id == pid) = some q → q.trackStock = true →
          qtyOf (applyVoidStock sh u sid r items db) pid = q.quantity +
            ((items.filter (fun it => it.productId == pid)).map
              (fun it => it.quantity)).sum ∧
          (new.filter (fun e => e.productId == pid)).map (fun e => e.quantity) =
            (items.filter (fun it => it.productId == pid)).map
              (fun it => it.quantity)) := by
  induction items generalizing db with
  | nil =>
    refine ⟨[], by simp [applyVoidStock], by simp, ?_⟩
    intro pid
    refine ⟨fun _ => ⟨rfl, rfl⟩, ?_⟩
    intro q hq htq
    simp [applyVoidStock, qtyOf, hq]
  | cons item rest ih =>
    cases hfind : db.products.find? (fun x => x.id == item.productId) with
    | none =>
      obtain ⟨new, hledger, hmeta, hper⟩ := ih db
      refine ⟨new, by simpa only [applyVoidStock, hfind] using hledger, hmeta, ?_⟩
      intro pid
      refine ⟨?_, ?_⟩
      · intro huntr
        have h1 := (hper pid).1 huntr
        constructor
        · simpa only [applyVoidStock, hfind] using h1.1
        · exact h1.2
      · intro q hq htq
        have hne : item.productId ≠ pid := by
          intro hc
          rw [hc, hq] at hfind
          cases hfind
        have h2 := (hper pid).2 q hq htq
        rw [List.filter_cons_of_neg (by simpa using hne)]
        constructor
        · simpa only [applyVoidStock, hfind] using h2.1
        · exact h2.2
    | some q0 =>
      by_cases ht : q0.trackStock = true
      · obtain ⟨new, hledger, hmeta, hper⟩ := ih
          { db with products := updateQty db.products item.productId (q0.quantity + item.quantity),
                    ledger := db.ledger ++
                      [{ shopId := sh, productId := item.productId,
                         userId := u, type := .RETURN, quantity := item.quantity,
                         previousQty := q0.quantity, newQty := q0.quantity + item.quantity,
                         reference := some sid, note := some ("Voided: " ++ r) }] }
        refine ⟨{ shopId := sh, productId := item.productId, userId := u, type := .RETURN,
                  quantity := item.quantity, previousQty := q0.quantity,
                  newQty := q0.quantity + item.quantity, reference := some sid,
                  note := some ("Voided: " ++ r) } :: new, ?_, ?_, ?_⟩
        · simp only [applyVoidStock, hfind, ht, if_true]
          rw [hledger]
          simp
        · intro e he
          rcases List.mem_cons.mp he with rfl | he2
          · exact ⟨rfl, rfl, rfl, rfl, rfl, rfl⟩
          · exact hmeta e he2
        · intro pid
          by_cases hpid : pid = item.productId
          · subst hpid
            refine ⟨?_, ?_⟩
            · intro huntr
              exact absurd (huntr q0 hfind) (by simp [ht])
            · intro q hq htq
              have hqq : q = q0 := Option.some.inj (hq ▸ hfind)
              subst hqq
              have hfind1 : (updateQty db.products item.productId
                  (q.quantity + item.quantity)).find? (fun x => x.id == item.productId) =
                  some { q with quantity := q.quantity + item.quantity } :=
                @find?_updateQty_self db.products item.productId q _ hq
              have h2 := (hper item.productId).2
                { q with quantity := q.quantity + item.quantity } hfind1 htq
              constructor
              · simp only [applyVoidStock, hfind, ht, if_true]
                rw [h2.1]
                rw [List.filter_cons_of_pos (by simp), List.map_cons, List.sum_cons]
                ring
              · rw [List.filter_cons_of_pos (by simp),
                  List.filter_cons_of_pos (by simp)]
                simp only [List.map_cons]
                rw [h2.2]
          · have hne : item.productId ≠ pid := fun hc => hpid hc.symm
            have hfr : (updateQty db.products item.productId
                (q0.quantity + item.quantity)).find? (fun x => x.id == pid) =
                db.products.find? (fun x => x.id == pid) :=
              @find?_updateQty_ne db.products item.productId pid _ (fun hc => hpid hc)
            refine ⟨?_, ?_⟩
            · intro huntr
              have h1 := (hper pid).1 (by rw [hfr]; exact huntr)
              constructor
              · rw [← hfr]
                simpa only [applyVoidStock, hfind, ht, if_true] using h1.1
              · rw [List.filter_cons_of_neg (by simpa using hne)]
                exact h1.2
            · intro q hq htq
              have h2 := (hper pid).2 q (by rw [hfr]; exact hq) htq
              constructor
              · rw [List.filter_cons_of_neg (by simpa using hne)]
                simpa only [applyVoidStock, hfind, ht, if_true] using h2.1
              · rw [List.filter_cons_of_neg (by simpa using hne),
                  List.filter_cons_of_neg (by simpa using hne)]
                exact h2.2
      · rw [Bool.not_eq_true] at ht
        obtain ⟨new, hledger, hmeta, hper⟩ := ih db
        refine ⟨new, by simpa only [applyVoidStock, hfind, ht, Bool.false_eq_true,
          if_false] using hledger, hmeta, ?_⟩
        intro pid
        refine ⟨?_, ?_⟩
        · intro huntr
          have h1 := (hper pid).1 huntr
          constructor
          · simpa only [applyVoidStock, hfind, ht, Bool.false_eq_true, if_false] using h1.1
          · exact h1.2
        · intro q hq htq
          have hne : item.productId ≠ pid := by
            intro hc
            rw [hc, hq] at hfind
            cases hfind
            rw [htq] at ht
            cases ht
          have h2 := (hper pid).2 q hq htq
          rw [List.filter_cons_of_neg (by simpa using hne)]
          constructor
          · simpa only [applyVoidStock, hfind, ht, Bool.false_eq_true, if_false] using h2.1
          · exact h2.2

theorem setVoided_id_voided {sales : List Sale} {sid r : String} {s2 : Sale}
    (hmem : s2 ∈ setVoided sales sid r) (hid : s2.id = sid) :
    s2.status = SaleStatus.VOIDED ∧ s2.voidReason = some r := by
  unfold setVoided at hmem
  rcases List.mem_map.mp hmem with ⟨s0, hs0, hmap⟩
  by_cases hc : (s0.id == sid) = true
  · rw [if_pos hc] at hmap
    rw [← hmap]
    exact ⟨rfl, rfl⟩
  · rw [if_neg hc] at hmap
    rw [← hmap] at hid
    exact absurd (by simpa using hid) hc

/-- C3 claim: voidSale succeeds exactly when the sale exists in the shop
with status COMPLETED; failures change nothing; success flips the sale to
VOIDED with the reason, credits each tracked product by the summed item
quantities with one RETURN entry per item carrying the reason and the
transactionally observed quantities, and a second void attempt fails fast
without touching the state. -/
theorem voidSale_contract (db : DB) (saleId shopId userId reason : String) :
    ((∃ s2, (voidSale db saleId shopId userId reason).1 = Except.ok s2) ↔
      ∃ s ∈ db.sales, s.id = saleId ∧ s.shopId = shopId ∧
        s.status = SaleStatus.COMPLETED) ∧
    (∀ e, (voidSale db saleId shopId userId reason).1 = Except.error e →
      (voidSale db saleId shopId userId reason).2 = db) ∧
    (∀ sale, db.sales.find? (fun s => s.id == saleId && s.shopId == shopId &&
        decide (s.status = SaleStatus.COMPLETED)) = some sale →
      (voidSale db saleId shopId userId reason).1 =
        Except.ok { sale with status := .VOIDED, voidReason := some reason } ∧
      (∀ s2 ∈ (voidSale db saleId shopId userId reason).2.sales,
        s2.id = saleId → s2.status = SaleStatus.VOIDED ∧ s2.voidReason = some reason) ∧
      (∃ new, (voidSale db saleId shopId userId reason).2.ledger = db.ledger ++ new ∧
        (∀ e ∈ new, e.type = .RETURN ∧ e.reference = some saleId ∧
          e.note = some ("Voided: " ++ reason) ∧ e.newQty = e.previousQty + e.quantity) ∧
        ∀ pid,
          ((∀ q, db.products.find? (fun x => x.id == pid) = some q →
              q.trackStock = false) →
            (voidSale db saleId shopId userId reason).2.products.find?
                (fun x => x.id == pid) =
              db.products.find? (fun x => x.id == pid) ∧
            new.filter (fun e => e.productId == pid) = []) ∧
          (∀ q, db.products.find? (fun x => x.id == pid) = some q →
            q.trackStock = true →
            qtyOf (voidSale db saleId shopId userId reason).2 pid = q.quantity +
              ((sale.items.filter (fun it => it.productId == pid)).map
                (fun it => it.quantity)).sum ∧
            (new.filter (fun e => e.productId == pid)).map (fun e => e.quantity) =
              (sale.items.filter (fun it => it.productId == pid)).map
                (fun it => it.quantity))) ∧
      (∀ u2 r2, voidSale (voidSale db saleId shopId userId reason).2 saleId shopId u2 r2 =
        (Except.error .notFoundOrVoided, (voidSale db saleId shopId userId reason).2))) := by
  refine ⟨?_, ?_, ?_⟩
  · cases hfind : db.sales.find? (fun s => s.id == saleId && s.shopId == shopId &&
        decide (s.status = SaleStatus.COMPLETED)) with
    | none =>
      unfold voidSale
      rw [hfind]
      constructor
      · intro ⟨s2, hs2⟩
        exact absurd hs2 (by simp)
      · intro ⟨s, hs, h1, h2, h3⟩
        exact absurd (List.find?_eq_none.mp hfind s hs) (by simp [h1, h2, h3])
    | some sale =>
      unfold voidSale
      rw [hfind]
      constructor
      · intro _
        have hp := List.find?_some hfind
        simp only [Bool.and_eq_true, beq_iff_eq, decide_eq_true_eq] at hp
        exact ⟨sale, List.mem_of_find?_eq_some hfind, hp.1.1, hp.1.2, hp.2⟩
      · intro _
        exact ⟨{ sale with status := .VOIDED, voidReason := some reason }, rfl⟩
  · intro e he
    unfold voidSale at he ⊢
    cases hfind : db.sales.find? (fun s => s.id == saleId && s.shopId == shopId &&
        decide (s.status = SaleStatus.COMPLETED)) with
    | none => rfl
    | some sale =>
      rw [hfind] at he
      simp at he
  · intro sale hfind
    have hout : voidSale db saleId shopId userId reason =
        (Except.ok { sale with status := .VOIDED, voidReason := some reason },
         applyVoidStock shopId (some userId) saleId reason sale.items
           { db with sales := setVoided db.sales saleId reason }) := by
      unfold voidSale
      rw [hfind]
    have hsales2 : (voidSale db saleId shopId userId reason).2.sales =
        setVoided db.sales saleId reason := by
      rw [hout]
      exact applyVoidStock_sales _ _ _ _ _ _
    refine ⟨by rw [hout], ?_, ?_, ?_⟩
    · intro s2 hs2 hid
      rw [hsales2] at hs2
      exact setVoided_id_voided hs2 hid
    · obtain ⟨new, h1, h2, h3⟩ := applyVoidStock_effects shopId (some userId) saleId
        reason sale.items { db with sales := setVoided db.sales saleId reason }
      refine ⟨new, ?_, fun e he => ⟨(h2 e he).1, (h2 e he).2.2.2.1, (h2 e he).2.2.2.2.1,
        (h2 e he).2.2.2.2.2⟩, ?_⟩
      · rw [hout]
        exact h1
      · intro pid
        refine ⟨?_, ?_⟩
        · intro huntr
          have := (h3 pid).1 huntr
          constructor
          · rw [hout]
            exact this.1
          · exact this.2
        · intro q hq htq
          have := (h3 pid).2 q hq htq
          constructor
          · rw [hout]
            exact this.1
          · exact this.2
    · intro u2 r2
      have hnone : (voidSale db saleId shopId userId reason).2.sales.find?
          (fun s => s.id == saleId && s.shopId == shopId &&
            decide (s.status = SaleStatus.COMPLETED)) = none := by
        rw [List.find?_eq_none]
        intro x hx
        rw [hsales2] at hx
        by_cases hid : x.id = saleId
        · have hv := setVoided_id_voided hx hid
          simp [hv.1]
        · simp [hid]
      generalize hY : (voidSale db saleId shopId userId reason).2 = Y at hnone ⊢
      unfold voidSale
      rw [hnone]

/-- Database state after the sample sale has been committed. -/
def sampleDBAfterSale : DB := (createSale sampleDB sampleEnv sampleInput).2

attribute [local semireducible] Rat.add Rat.sub Rat.mul in
set_option maxRecDepth 8192 in
theorem voidSale_contract_witness :
    (voidSale sampleDBAfterSale "SALE1" "S1" "U2" "mind change").1 =
      Except.ok { sampleSale with status := .VOIDED, voidReason := some "mind change" } ∧
    qtyOf (voidSale sampleDBAfterSale "SALE1" "S1" "U2" "mind change").2 "P1" = 10 ∧
    voidSale (voidSale sampleDBAfterSale "SALE1" "S1" "U2" "mind change").2
        "SALE1" "S1" "U3" "again" =
      (Except.error .notFoundOrVoided,
       (voidSale sampleDBAfterSale "SALE1" "S1" "U2" "mind change").2) :=
  ⟨((voidSale_contract sampleDBAfterSale "SALE1" "S1" "U2" "mind change").2.2 sampleSale
      (by decide)).1,
   by decide,
   ((voidSale_contract sampleDBAfterSale "SALE1" "S1" "U2" "mind change").2.2 sampleSale
      (by decide)).2.2.2 "U3" "again"⟩

/-- C5 amended: resolution compares the found-product count against the
number of cart lines (duplicates counted), so a cart with duplicate
productId lines always fails with ProductNotFound and zero side effects;
a successful sale therefore always has duplicate-free product ids. -/
theorem duplicate_lines_rejected (db : DB) (env : SaleEnv) (input : CreateSaleInput)
    (hnd : (db.products.map (fun p => p.id)).Nodup) :
    (¬(input.items.map (fun i => i.productId)).Nodup →
      createSale db env input = (.error .productNotFound, db)) ∧
    (∀ sale db2, createSale db env input = (.ok sale, db2) →
      (input.items.map (fun i => i.productId)).Nodup) := by
  constructor
  · intro hdup
    have hne : (resolveProducts db input).length ≠ input.items.length := by
      intro hlen
      exact hdup (resolve_success_of db.products
        (input.items.map (fun i => i.productId))
        (fun p hp => ((Bool.and_eq_true _ _).mp ((Bool.and_eq_true _ _).mp hp).1).1)
        hnd (by rw [List.length_map]; exact hlen)).1
    unfold createSale
    rw [if_pos hne]
  · intro sale db2 h
    exact (resolve_success_of db.products
      (input.items.map (fun i => i.productId))
      (fun p hp => ((Bool.and_eq_true _ _).mp ((Bool.and_eq_true _ _).mp hp).1).1)
      hnd (by rw [List.length_map]; exact (createSale_ok_inv h).1)).1

/-- Sample cart with two lines for the same product P1 (quantities 2, 3). -/
def sampleInputDup : CreateSaleInput :=
  { shopId := "S1", userId := some "U1",
    items := [{ productId := "P1", quantity := 2, discount := none },
              { productId := "P1", quantity := 3, discount := none }],
    paymentMethod := .CASH, amountPaid := 100, discount := none }

theorem duplicate_lines_counterexample :
    (sampleInputDup.items.map (fun i => i.productId)).dedup.length = 1 ∧
    (resolveProducts sampleDB sampleInputDup).length = 1 ∧
    createSale sampleDB sampleEnv sampleInputDup = (.error .productNotFound, sampleDB) := by
  refine ⟨by decide, by decide, by decide⟩

theorem duplicate_lines_rejected_witness :
    createSale sampleDB sampleEnv sampleInputDup = (.error .productNotFound, sampleDB) :=
  (duplicate_lines_rejected sampleDB sampleEnv sampleInputDup (by decide)).1 (by decide)

/-- The count window of countTodaySales is exactly the server-local calendar
day of t: a sale is counted iff its createdAt lies in the same local day. -/
theorem countTodaySales_localDay (db : DB) (shopId : String) (t off : ℤ) :
    countTodaySales db shopId t off =
      (db.sales.filter (fun s => s.shopId == shopId &&
        decide (Int.ediv (s.createdAt + off) 1440 = Int.ediv (t + off) 1440))).length := by
  unfold countTodaySales
  congr 1
  apply List.filter_congr
  intro s _
  cases hs : s.shopId == shopId
  · simp [hs]
  · simp only [hs, Bool.true_and]
    rw [Bool.eq_iff_iff]
    simp only [Bool.and_eq_true, decide_eq_true_eq]
    unfold startOfLocalDay
    have hj : (s.createdAt + off).ediv 1440 = (s.createdAt + off) / 1440 := rfl
    have hi : (t + off).ediv 1440 = (t + off) / 1440 := rfl
    rw [hj, hi]
    omega

/-- C6 amended: the receipt number of every created sale has the format
RCP-YYMMDD-NNNN, but YYMMDD is the UTC calendar day of the creation instant
(toISOString prints UTC fields), not the server-local day, while NNNN is the
4-digit zero-padded count of the shop's existing sales whose createdAt falls
within the server-local calendar day of the creation instant, plus one. -/
theorem receipt_number_format (db : DB) (env : SaleEnv) (input : CreateSaleInput)
    (sale : Sale) (db2 : DB) (h : createSale db env input = (.ok sale, db2)) :
    sale.receiptNumber =
      "RCP-" ++ yymmdd (civilFromDays (Int.ediv env.now 1440)) ++ "-" ++
      padStart 4 (toString
        ((db.sales.filter (fun s => s.shopId == input.shopId &&
          decide (Int.ediv (s.createdAt + env.tzOffset) 1440 =
            Int.ediv (env.now + env.tzOffset) 1440))).length + 1)) := by
  obtain ⟨-, -, saleItems, subtotal, -, -, hsale, -⟩ := createSale_ok_inv h
  rw [hsale]
  simp only [dateStrOf, countTodaySales_localDay]

attribute [local semireducible] Rat.add Rat.sub Rat.mul in
set_option maxRecDepth 8192 in
theorem receipt_number_format_witness :
    sampleSale.receiptNumber =
      "RCP-" ++ yymmdd (civilFromDays (Int.ediv sampleEnv.now 1440)) ++ "-" ++
      padStart 4 (toString
        ((sampleDB.sales.filter (fun s => s.shopId == sampleInput.shopId &&
          decide (Int.ediv (s.createdAt + sampleEnv.tzOffset) 1440 =
            Int.ediv (sampleEnv.now + sampleEnv.tzOffset) 1440))).length + 1)) :=
  receipt_number_format sampleDB sampleEnv sampleInput sampleSale
    (createSale sampleDB sampleEnv sampleInput).2 (by decide)

attribute [local semireducible] Rat.add Rat.sub Rat.mul in
set_option maxRecDepth 8192 in
theorem receipt_day_counterexample :
    (createSale sampleDB sampleEnv sampleInput).1 = Except.ok sampleSale ∧
    sampleSale.receiptNumber = "RCP-" ++ dateStrOf sampleEnv.now ++ "-0001" ∧
    dateStrOf sampleEnv.now = "260212" ∧
    yymmdd (civilFromDays (Int.ediv (sampleEnv.now + sampleEnv.tzOffset) 1440)) = "260213" ∧
    sampleSale.receiptNumber ≠
      "RCP-" ++ yymmdd (civilFromDays (Int.ediv (sampleEnv.now + sampleEnv.tzOffset) 1440))
        ++ "-0001" := by
  refine ⟨by decide, by decide, by decide, by decide, by decide⟩

theorem applySaleStock_shops (sh : String) (u : Option String) (sid : String)
    (snapshot : List Product) (items : List SaleItemInput) (db : DB) :
    (applySaleStock sh u sid snapshot items db).shops = db.shops := by
  induction items generalizing db with
  | nil => rfl
  | cons item rest ih =>
    cases hfind : snapshot.find? (fun p => p.id == item.productId) with
    | none =>
      simp only [applySaleStock, hfind]
      exact ih db
    | some p =>
      by_cases ht : p.trackStock = true
      · simp only [applySaleStock, hfind, ht, if_true]
        exact ih _
      · rw [Bool.not_eq_true] at ht
        simp only [applySaleStock, hfind, ht, Bool.false_eq_true, if_false]
        exact ih db

theorem DB.ext4 {a b : DB} (h1 : a.shops = b.shops) (h2 : a.products = b.products)
    (h3 : a.sales = b.sales) (h4 : a.ledger = b.ledger) : a = b := by
  cases a; cases b
  cases h1; cases h2; cases h3; cases h4
  rfl

/-- C8 amended: the usage increment runs after the committed sale
transaction, so its failure never rolls back the committed sale: the sale
row, sale items, stock decrements and ledger entries all persist and only
the shop counters stay untouched — but the failure propagates out of
createSale, so the call itself reports usageIncrementFailed instead of
returning the committed sale. -/
theorem usage_increment_failure_semantics (db : DB) (env : SaleEnv)
    (input : CreateSaleInput) (sale : Sale) (db2 : DB)
    (h : createSale db env input = (.ok sale, db2)) :
    createSale db { env with incrementOk := false } input =
      (.error .usageIncrementFailed, { db2 with shops := db.shops }) := by
  obtain ⟨hres, hinc, saleItems, subtotal, hbuild, hpay, hsale, hdb2⟩ := createSale_ok_inv h
  unfold createSale
  rw [if_neg (fun hc => hc hres)]
  simp only [hbuild]
  rw [if_neg hpay]
  rw [if_neg (by simp : ¬(SaleEnv.incrementOk { env with incrementOk := false } = true))]
  refine congrArg (Prod.mk (Except.error SaleError.usageIncrementFailed)) ?_
  rw [hdb2, hsale]
  refine DB.ext4 ?_ rfl rfl rfl
  exact applySaleStock_shops _ _ _ _ _ _

attribute [local semireducible] Rat.add Rat.sub Rat.mul in
set_option maxRecDepth 8192 in
theorem usage_increment_failure_semantics_witness :
    createSale sampleDB { sampleEnv with incrementOk := false } sampleInput =
      (.error .usageIncrementFailed,
       { (createSale sampleDB sampleEnv sampleInput).2 with shops := sampleDB.shops }) :=
  usage_increment_failure_semantics sampleDB sampleEnv sampleInput sampleSale
    (createSale sampleDB sampleEnv sampleInput).2 (by decide)

attribute [local semireducible] Rat.add Rat.sub Rat.mul in
set_option maxRecDepth 8192 in
theorem usage_increment_fails_call_counterexample :
    (createSale sampleDB { sampleEnv with incrementOk := false } sampleInput).1 =
      Except.error .usageIncrementFailed ∧
    (createSale sampleDB { sampleEnv with incrementOk := false } sampleInput).2.sales.length = 1 ∧
    qtyOf (createSale sampleDB { sampleEnv with incrementOk := false } sampleInput).2 "P1" = 7 := by
  refine ⟨by decide, by decide, by decide⟩

theorem charsStartWith_iff (n : List Char) : ∀ h : List Char,
    charsStartWith n h = true ↔ ∃ t, h = n ++ t := by
  induction n with
  | nil =>
    intro h
    constructor
    · intro _
      exact ⟨h, rfl⟩
    · intro _
      rfl
  | cons a as ih =>
    intro h
    cases h with
    | nil =>
      constructor
      · intro hc
        exact absurd hc (by simp [charsStartWith])
      · rintro ⟨t, ht⟩
        simp at ht
    | cons b bs =>
      constructor
      · intro hc
        simp only [charsStartWith, Bool.and_eq_true, beq_iff_eq] at hc
        obtain ⟨t, ht⟩ := (ih bs).mp hc.2
        refine ⟨t, ?_⟩
        rw [List.cons_append, ht, hc.1]
      · rintro ⟨t, ht⟩
        rw [List.cons_append] at ht
        simp only [List.cons.injEq] at ht
        simp only [charsStartWith, Bool.and_eq_true, beq_iff_eq]
        exact ⟨ht.1.symm, (ih bs).mpr ⟨t, ht.2⟩⟩

theorem charsContain_iff (n : List Char) : ∀ h : List Char,
    charsContain n h = true ↔ ∃ l r, h = l ++ n ++ r := by
  intro h
  induction h with
  | nil =>
    constructor
    · intro hc
      cases hn : n with
      | nil => exact ⟨[], [], rfl⟩
      | cons a as =>
        rw [hn] at hc
        exact absurd hc (by simp [charsContain, List.isEmpty])
    · rintro ⟨l, r, hlr⟩
      have h2 : l ++ n ++ r = [] := hlr.symm
      have h3 : n = [] := by
        cases hn : n with
        | nil => rfl
        | cons a as => rw [hn] at h2; simp at h2
      rw [h3]
      rfl
  | cons c t ih =>
    simp only [charsContain, Bool.or_eq_true, charsStartWith_iff, ih]
    constructor
    · rintro (⟨r, hr⟩ | ⟨l, r, hlr⟩)
      · exact ⟨[], r, by simpa using hr⟩
      · exact ⟨c :: l, r, by simp [hlr]⟩
    · rintro ⟨l, r, hlr⟩
      cases l with
      | nil =>
        left
        exact ⟨r, by simpa using hlr⟩
      | cons x xs =>
        right
        rw [List.cons_append, List.cons_append] at hlr
        simp only [List.cons.injEq] at hlr
        exact ⟨xs, r, hlr.2⟩

/-- C10 claim: getByReceiptNumber matches by case-insensitive substring, not
exact equality: a returned sale belongs to the shop and its uppercased
receipt number contains the uppercased query as a contiguous substring, and
the call fails with saleNotFound exactly when no sale of the shop has a
receipt number containing the query. -/
theorem getByReceiptNumber_spec (db : DB) (q shopId : String) :
    (∀ s, getByReceiptNumber db q shopId = .ok s →
      s ∈ db.sales ∧ s.shopId = shopId ∧
      ∃ l r, (toUpper s.receiptNumber).data = l ++ (toUpper q).data ++ r) ∧
    (getByReceiptNumber db q shopId = .error (.saleNotFound q) ↔
      ∀ s ∈ db.sales, s.shopId = shopId →
        ¬∃ l r, (toUpper s.receiptNumber).data = l ++ (toUpper q).data ++ r) := by
  constructor
  · intro s hs
    unfold getByReceiptNumber at hs
    cases hfind : db.sales.find? (fun s =>
        s.shopId == shopId && matchesReceipt s.receiptNumber q) with
    | none =>
      rw [hfind] at hs
      exact absurd hs (by simp)
    | some s0 =>
      rw [hfind] at hs
      simp only [Except.ok.injEq] at hs
      subst hs
      have hmem := List.mem_of_find?_eq_some hfind
      have hprop := List.find?_some hfind
      simp only [Bool.and_eq_true, beq_iff_eq] at hprop
      exact ⟨hmem, hprop.1, (charsContain_iff _ _).mp hprop.2⟩
  · constructor
    · intro he s hmem hshop hex
      unfold getByReceiptNumber at he
      cases hfind : db.sales.find? (fun s =>
          s.shopId == shopId && matchesReceipt s.receiptNumber q) with
      | some s0 =>
        rw [hfind] at he
        exact absurd he (by simp)
      | none =>
        have hnone := List.find?_eq_none.mp hfind s hmem
        apply hnone
        simp only [Bool.and_eq_true, beq_iff_eq]
        exact ⟨hshop, (charsContain_iff _ _).mpr hex⟩
    · intro hall
      unfold getByReceiptNumber
      cases hfind : db.sales.find? (fun s =>
          s.shopId == shopId && matchesReceipt s.receiptNumber q) with
      | some s0 =>
        exfalso
        have hmem := List.mem_of_find?_eq_some hfind
        have hprop := List.find?_some hfind
        simp only [Bool.and_eq_true, beq_iff_eq] at hprop
        exact hall s0 hmem hprop.1 ((charsContain_iff _ _).mp hprop.2)
      | none => rfl

attribute [local semireducible] Rat.add Rat.sub Rat.mul in
set_option maxRecDepth 8192 in
theorem getByReceiptNumber_spec_witness :
    (sampleSale ∈ sampleDBAfterSale.sales ∧ sampleSale.shopId = "S1" ∧
      ∃ l r, (toUpper sampleSale.receiptNumber).data = l ++ (toUpper "0001").data ++ r) ∧
    getByReceiptNumber sampleDBAfterSale "rcp-260212" "S1" = .ok sampleSale ∧
    getByReceiptNumber sampleDBAfterSale "9999" "S1" =
      .error (.saleNotFound "9999") :=
  ⟨(getByReceiptNumber_spec sampleDBAfterSale "0001" "S1").1 sampleSale (by decide),
   by decide, by decide⟩

end Yebomart